import Mathlib

/-!
Shallow embedding of the idealista-web-scraper core in Lean 4, together with
proofs of the specification claims about it.

The embedding follows the Python sources:
* `src/idealista_scraper/scraping/listings_scraper.py` (price-segmented crawl,
  upsert & history engine, run ledger),
* `src/idealista_scraper/scraping/async_listings_scraper.py` (concurrency-bounded
  batch crawl),
* `src/idealista_scraper/scraping/details_scraper.py` (free-text enrichment),
* `src/idealista_scraper/scraping/pre_scraper.py` (geography pre-scrape),
* `src/idealista_scraper/db/models.py` (schema constraints).

Python `int` prices are modelled as `Int`, Python `float` areas as `Rat`
(no floating-point rounding matters for the claims below: the code only tests
presence/truthiness of parsed areas), timestamps as abstract `Nat` ticks, and
the external fetch/parse collaborators as functions supplied per page.
-/

namespace Idealista

/-! ## Python string primitives used by the parsing code -/

/-- Python `str.lower()` restricted to the ASCII case mapping
(`Char.toLower` is the identity on non-ASCII characters). -/
def pyLower (s : String) : String := String.mk (s.data.map Char.toLower)

/-- Python `str.upper()` restricted to the ASCII case mapping. -/
def pyUpper (s : String) : String := String.mk (s.data.map Char.toUpper)

/-- Python substring containment `needle in hay` on character lists. -/
def listContainsSub (needle : List Char) : List Char → Bool
  | [] => needle.isEmpty
  | c :: rest => needle.isPrefixOf (c :: rest) || listContainsSub needle rest

/-- Python substring containment `needle in hay` on strings. -/
def strContains (hay needle : String) : Bool := listContainsSub needle.data hay.data

/-- Python whitespace class `\s` (ASCII part). -/
def pySpace (c : Char) : Bool :=
  c = ' ' || c = '\t' || c = '\n' || c = '\r' || c = '\x0b' || c = '\x0c'

/-- Numeric value of a decimal digit character. -/
def digitVal (c : Char) : Nat := c.toNat - Char.toNat '0'

/-- Value of a list of decimal digit characters, as Python `int(...)`. -/
def digitsToNat (ds : List Char) : Nat := ds.foldl (fun a c => 10 * a + digitVal c) 0

/-- `re.search(r"(\d+)", s)`: the first maximal run of digits, if any. -/
def firstDigitRun : List Char → Option (List Char)
  | [] => none
  | c :: rest =>
    if c.isDigit then some ((c :: rest).takeWhile Char.isDigit)
    else firstDigitRun rest

/-- `re.search(r"(\d+)\s*kw", s)`: leftmost maximal digit run followed by
optional whitespace and the literal keyword `kw`; returns the digit run.
(The keywords used in the sources start with a letter, so regex backtracking
inside the digit run can never produce a different match.) -/
def searchNumBefore (kw : List Char) : List Char → Option (List Char)
  | [] => none
  | c :: rest =>
    if c.isDigit then
      let run := (c :: rest).takeWhile Char.isDigit
      let after := ((c :: rest).dropWhile Char.isDigit).dropWhile pySpace
      if kw.isPrefixOf after then some run else searchNumBefore kw rest
    else searchNumBefore kw rest

/-- Character class `[\d.,]` of the area regex. -/
def areaChar (c : Char) : Bool := c.isDigit || c = '.' || c = ','

/-- `re.search(r"([\d.,]+)\s*m²", s)`: leftmost maximal `[\d.,]` run followed by
optional whitespace and the literal `m²`; returns the run. -/
def searchAreaRun : List Char → Option (List Char)
  | [] => none
  | c :: rest =>
    if areaChar c then
      let run := (c :: rest).takeWhile areaChar
      let after := ((c :: rest).dropWhile areaChar).dropWhile pySpace
      if ['m', '²'].isPrefixOf after then some run else searchAreaRun rest
    else searchAreaRun rest

/-- `area_str.replace(".", "").replace(",", ".")`. -/
def pyReplaceDots (run : List Char) : List Char :=
  (run.filter (fun c => c ≠ '.')).map (fun c => if c = ',' then '.' else c)

/-- Python `float(s)` for strings made of digits and dots, as an exact rational;
`none` models `ValueError`. -/
def pyFloat (s : List Char) : Option Rat :=
  let intPart := s.takeWhile Char.isDigit
  let rest := s.dropWhile Char.isDigit
  match rest with
  | [] => if intPart.isEmpty then none else some (digitsToNat intPart : Rat)
  | '.' :: frac =>
    if frac.all Char.isDigit then
      if intPart.isEmpty && frac.isEmpty then none
      else some ((digitsToNat intPart : Rat) + (digitsToNat frac : Rat) / ((10 : Rat) ^ frac.length))
    else none
  | _ => none

/-- `re.match(r"^(t\d\+?)$", s)`: a whole-string typology match. -/
def matchTypology (s : List Char) : Option (List Char) :=
  match s with
  | [t, d] => if t = 't' && d.isDigit then some [t, d] else none
  | [t, d, p] => if t = 't' && d.isDigit && p = '+' then some [t, d, p] else none
  | _ => none

/-! ## Python truthiness of the optional values the update path tests -/

/-- Truthiness of an optional string (`if typology:`). -/
def truthyStr : Option String → Bool
  | none => false
  | some s => !s.isEmpty

/-- Truthiness of an optional float (`if area_gross:`); `0.0` is falsy. -/
def truthyRat : Option Rat → Bool
  | none => false
  | some a => decide (a ≠ 0)

/-- Truthiness of an optional int (`if bedrooms:`); `0` is falsy. -/
def truthyNat : Option Nat → Bool
  | none => false
  | some n => decide (n ≠ 0)

/-- Truthiness of a list (`if card.tags`). -/
def truthyList (l : List String) : Bool := !l.isEmpty

/-! ## Data model (db/models.py and scraping/selectors.py) -/

/-- `selectors.ParsedListingCard`. -/
structure ParsedListingCard where
  idealista_id : Nat
  url : String
  title : String
  price : Option Int
  operation : String
  property_type : String
  summary_location : Option String := none
  details_raw : List String := []
  description : Option String := none
  agency_name : Option String := none
  agency_url : Option String := none
  image_url : Option String := none
  tags : List String := []
  deriving Repr, DecidableEq

/-- `selectors.SearchMetadata`. -/
structure SearchMetadata where
  total_count : Nat
  page : Nat
  has_next_page : Bool
  last_page : Option Nat := none
  lowest_price_on_page : Option Int := none
  deriving Repr, DecidableEq

/-- `models.Concelho` (the columns the scrapers read or write). -/
structure Concelho where
  id : Nat
  district_id : Option Nat
  name : String
  slug : String
  last_scraped : Option Nat := none
  deriving Repr, DecidableEq

/-- `models.Listing`: one row of the `listings` table.  The `raw_data` JSON
blob is omitted (opaque payload, never read back by the embedded code). -/
structure Listing where
  id : Nat
  idealista_id : Nat
  concelho_id : Option Nat
  operation : String
  property_type : String
  url : String
  title : Option String := none
  price : Option Int := none
  price_per_sqm : Option Rat := none
  area_gross : Option Rat := none
  area_useful : Option Rat := none
  typology : Option String := none
  bedrooms : Option Nat := none
  bathrooms : Option Nat := none
  floor : Option String := none
  has_elevator : Option Bool := none
  has_garage : Option Bool := none
  has_pool : Option Bool := none
  has_garden : Option Bool := none
  has_terrace : Option Bool := none
  has_balcony : Option Bool := none
  has_air_conditioning : Option Bool := none
  has_central_heating : Option Bool := none
  is_luxury : Option Bool := none
  has_sea_view : Option Bool := none
  energy_class : Option String := none
  condition : Option String := none
  year_built : Option Nat := none
  street : Option String := none
  neighborhood : Option String := none
  parish : Option String := none
  description : Option String := none
  agency_name : Option String := none
  agency_url : Option String := none
  reference : Option String := none
  tags : Option String := none
  image_url : Option String := none
  first_seen : Nat
  last_seen : Nat
  is_active : Bool
  deriving Repr, DecidableEq

/-- The `changes` JSON payload of a history row: old/new price. -/
structure PriceChange where
  old : Option Int
  new : Option Int
  deriving Repr, DecidableEq

/-- `models.ListingHistory`: one row of the `listing_history` table. -/
structure ListingHistory where
  listing_id : Nat
  price : Option Int
  scraped_at : Nat
  changes : Option PriceChange
  deriving Repr, DecidableEq

/-- The persistent store seen by the listings scraper: the `listings` and
`listing_history` tables plus the autoincrement counter for fresh row ids. -/
structure Db where
  listings : List Listing
  history : List ListingHistory
  nextId : Nat
  deriving Repr, DecidableEq

/-- The site-assigned external ids currently stored, in row order. -/
def dbIds (db : Db) : List Nat := db.listings.map (fun l => l.idealista_id)

/-! ## Upsert & history engine (listings_scraper.py) -/

/-- `IDEALISTA_BASE_URL`. -/
def IDEALISTA_BASE_URL : String := "https://www.idealista.pt"

/-- `ListingsScraper._normalize_url`. -/
def normalizeUrl (url : String) : String :=
  if ("http").isPrefixOf url then url else IDEALISTA_BASE_URL ++ url

/-- `",".join(card.tags) if card.tags else None`. -/
def joinTags (tags : List String) : Option String :=
  if truthyList tags then some (String.intercalate (",") tags) else none

/-- One step of the loop in `ListingsScraper._parse_details`. -/
def parseDetailsStep (acc : Option String × Option Rat × Option Nat) (detail : String) :
    Option String × Option Rat × Option Nat :=
  let dl := pyLower detail
  match matchTypology dl.data with
  | some g =>
    let ty := pyUpper (String.mk g)
    let bd := match firstDigitRun ty.data with
      | some run => some (digitsToNat run)
      | none => acc.2.2
    (some ty, acc.2.1, bd)
  | none =>
    match searchAreaRun detail.data with
    | some run =>
      let ag := match pyFloat (pyReplaceDots run) with
        | some a => some a
        | none => acc.2.1
      (acc.1, ag, acc.2.2)
    | none =>
      match searchNumBefore (("quarto" : String).data) dl.data with
      | some run =>
        if acc.2.2 = none then (acc.1, acc.2.1, some (digitsToNat run)) else acc
      | none => acc

/-- `ListingsScraper._parse_details`: `(typology, area_gross, bedrooms)`. -/
def parseDetails (details_raw : List String) : Option String × Option Rat × Option Nat :=
  details_raw.foldl parseDetailsStep (none, none, none)

/-- `ListingsScraper._update_listing`: returns the updated row and the
history rows appended (the Python function returns `False`; the upsert
wrapper below supplies that). -/
def updateListing (listing : Listing) (card : ParsedListingCard) (now : Nat) :
    Listing × List ListingHistory :=
  let newHistory : List ListingHistory :=
    if card.price ≠ listing.price then
      [{ listing_id := listing.id, price := listing.price, scraped_at := now,
         changes := some { old := listing.price, new := card.price } }]
    else []
  let l := { listing with
    title := some card.title, price := card.price,
    agency_name := card.agency_name, agency_url := card.agency_url,
    image_url := card.image_url, tags := joinTags card.tags,
    last_seen := now, is_active := true }
  let parsed := parseDetails card.details_raw
  let l := if truthyStr parsed.1 then { l with typology := parsed.1 } else l
  let l := if truthyRat parsed.2.1 then { l with area_gross := parsed.2.1 } else l
  let l := if truthyNat parsed.2.2 then { l with bedrooms := parsed.2.2 } else l
  (l, newHistory)

/-- `ListingsScraper._create_listing`: the new row (the fresh autoincrement id
is supplied by the caller). -/
def createListing (concelho : Option Concelho) (card : ParsedListingCard)
    (now : Nat) (rowId : Nat) : Listing :=
  let parsed := parseDetails card.details_raw
  { id := rowId
    idealista_id := card.idealista_id
    concelho_id := match concelho with | some c => some c.id | none => none
    operation := card.operation
    property_type := card.property_type
    url := normalizeUrl card.url
    title := some card.title
    price := card.price
    typology := parsed.1
    area_gross := parsed.2.1
    bedrooms := parsed.2.2
    agency_name := card.agency_name
    agency_url := card.agency_url
    image_url := card.image_url
    tags := joinTags card.tags
    description := card.description
    first_seen := now
    last_seen := now
    is_active := true }

/-- `session.query(Listing).filter_by(idealista_id=...).first()`. -/
def findByIdealistaId (db : Db) (iid : Nat) : Option Listing :=
  db.listings.find? (fun l => l.idealista_id == iid)

/-- `ListingsScraper._upsert_listing_card`: create or update keyed on
`idealista_id`; `true` means created. -/
def upsertListingCard (db : Db) (concelho : Option Concelho)
    (card : ParsedListingCard) (now : Nat) : Db × Bool :=
  match findByIdealistaId db card.idealista_id with
  | some existing =>
    let r := updateListing existing card now
    ({ db with
        listings := db.listings.map
          (fun x => if x.idealista_id == card.idealista_id then r.1 else x),
        history := db.history ++ r.2 }, false)
  | none =>
    ({ db with
        listings := db.listings ++ [createListing concelho card now db.nextId],
        nextId := db.nextId + 1 }, true)

/-- The per-page card loop of `_scrape_segment` / `_process_page_results`:
upserts every card in order, counting `(created, updated)`.  The store is
threaded left to right exactly as in the source; the two counters are
tallied per card, so accumulating them on the way out of the recursion
yields the same totals as the source's in-place increments. -/
def processCards (db : Db) (concelho : Option Concelho)
    (cards : List ParsedListingCard) (now : Nat) : Db × Nat × Nat :=
  match cards with
  | [] => (db, 0, 0)
  | card :: rest =>
    let r := upsertListingCard db concelho card now
    let restR := processCards r.1 concelho rest now
    if r.2 then (restR.1, restR.2.1 + 1, restR.2.2)
    else (restR.1, restR.2.1, restR.2.2 + 1)

/-! ## Segmentation engine (listings_scraper.py, `_scrape_segment` and
`_scrape_location`) -/

/-- `MAX_PAGES_LIMIT`: the site shows at most 60 result pages per query. -/
def MAX_PAGES_LIMIT : Nat := 60

/-- `listings_scraper.ScrapeSegment`. -/
structure ScrapeSegment where
  location_slug : String
  operation : String
  property_type : String
  max_price : Option Int := none
  min_price : Option Int := none
  deriving Repr, DecidableEq

/-- `min(self.config.scraping.max_pages or MAX_PAGES_LIMIT, MAX_PAGES_LIMIT)`
(Python `or`: both `None` and `0` fall back to the limit). -/
def effectiveMaxPages (cfgMaxPages : Option Nat) : Nat :=
  min
    (match cfgMaxPages with
     | some n => if n = 0 then MAX_PAGES_LIMIT else n
     | none => MAX_PAGES_LIMIT)
    MAX_PAGES_LIMIT

/-- The per-segment statistics dictionary of `_scrape_segment`. -/
structure SegmentStats where
  processed : Nat := 0
  created : Nat := 0
  updated : Nat := 0
  pages : Nat := 0
  next_max_price : Option Int := none
  deriving Repr, DecidableEq

/-- The `lowest_price_seen` update of `_scrape_segment`: take the page's
lowest price when it is present and below the running value. -/
def updateLowest (lowest : Option Int) (pageLow : Option Int) : Option Int :=
  match pageLow with
  | some p =>
    match lowest with
    | none => some p
    | some l => if p < l then some p else some l
  | none => lowest

/-- The page loop of `ListingsScraper._scrape_segment`.  The external fetch +
parse of page `p` is `fetchParse p`; `none` models the `RuntimeError` caught
by the loop (break).  `fuel` equals `max_pages + 1 - page`, so the body can
run for pages `page, …, max_pages` exactly as `while page <= max_pages`.
Besides the source's statistics and the store, the loop also returns the
running `lowest_price_seen` accumulator and the list of per-page lowest
prices observed so far (instrumentation used only to state the claims). -/
def segLoop (fetchParse : Nat → Option (List ParsedListingCard × SearchMetadata))
    (concelho : Option Concelho) (now : Nat) :
    Nat → Nat → Option Int → SegmentStats → List (Option Int) → Db →
    SegmentStats × Option Int × List (Option Int) × Db
  | 0, _page, lowest, stats, lows, db => (stats, lowest, lows, db)
  | fuel + 1, page, lowest, stats, lows, db =>
    match fetchParse page with
    | none => (stats, lowest, lows, db)
    | some (cards, md) =>
      let r := processCards db concelho cards now
      let stats := { stats with
        processed := stats.processed + cards.length,
        created := stats.created + r.2.1,
        updated := stats.updated + r.2.2,
        pages := stats.pages + 1 }
      let lowest := updateLowest lowest md.lowest_price_on_page
      let lows := lows ++ [md.lowest_price_on_page]
      if !md.has_next_page then (stats, lowest, lows, r.1)
      else if MAX_PAGES_LIMIT ≤ page then
        (match lowest with
         | some lp => ({ stats with next_max_price := some lp }, lowest, lows, r.1)
         | none => (stats, lowest, lows, r.1))
      else segLoop fetchParse concelho now fuel (page + 1) lowest stats lows r.1

/-- `ListingsScraper._scrape_segment`: run the page loop from page 1. -/
def scrapeSegment (fetchParse : Nat → Option (List ParsedListingCard × SearchMetadata))
    (cfgMaxPages : Option Nat) (concelho : Option Concelho) (now : Nat) (db : Db) :
    SegmentStats × Option Int × List (Option Int) × Db :=
  segLoop fetchParse concelho now (effectiveMaxPages cfgMaxPages) 1 none {} [] db

/-- One crawled segment in the trace of `_scrape_location`: the segment, its
statistics, and (instrumentation) the final `lowest_price_seen` and the
per-page lowest prices its crawl observed. -/
structure SegTraceEntry where
  segment : ScrapeSegment
  stats : SegmentStats
  lowest_seen : Option Int
  page_lows : List (Option Int)
  deriving Repr, DecidableEq

/-- The `while True` segment loop of `ListingsScraper._scrape_location`.
`site i` is the fetch/parse behaviour the network exhibits for the `i`-th
segment crawled.  The Python loop has no bound of its own, so the embedding
takes `fuel` and returns `none` when `fuel` iterations did not reach one of
the source's `break`s.  On termination it returns the trace of crawled
segments in order together with the final store; the source's per-location
statistics are the componentwise sums over the trace and the segment count
is the trace length. -/
def locLoop (site : Nat → Nat → Option (List ParsedListingCard × SearchMetadata))
    (cfgMaxPages : Option Nat) (concelho : Option Concelho) (now : Nat) :
    Nat → Nat → ScrapeSegment → Db → Option (List SegTraceEntry × Db)
  | 0, _, _, _ => none
  | fuel + 1, i, segment, db =>
    let r := scrapeSegment (site i) cfgMaxPages concelho now db
    let entry : SegTraceEntry :=
      { segment := segment, stats := r.1, lowest_seen := r.2.1, page_lows := r.2.2.1 }
    match r.1.next_max_price with
    | none => some ([entry], r.2.2.2)
    | some next_max_price =>
      if (match segment.min_price with
          | some mp => decide (next_max_price ≤ mp)
          | none => false) then
        some ([entry], r.2.2.2)
      else
        (locLoop site cfgMaxPages concelho now fuel (i + 1)
            { segment with max_price := some next_max_price } r.2.2.2).map
          (fun p => (entry :: p.1, p.2))

/-- A well-formed site response for one segment's query: `totalPages` pages
in the paginator, per-page lowest prices `lows`, per-page card lists
`cards`; every fetch succeeds and the metadata is consistent
(`has_next_page` iff the page index is below `totalPages`). -/
def mkPages (totalPages : Nat) (lows : Nat → Option Int)
    (cards : Nat → List ParsedListingCard) :
    Nat → Option (List ParsedListingCard × SearchMetadata) :=
  fun page =>
    some (cards page,
      { total_count := 30 * totalPages, page := page,
        has_next_page := decide (page < totalPages),
        last_page := some totalPages, lowest_price_on_page := lows page })

/-- The relation claim C1 asserts between consecutive entries of a
location's segment trace: the earlier crawl requested a further segment at
price `p`, `p` is exactly the earlier crawl's `lowest_price_seen`, the new
segment's `max_price` is `p`, its `min_price` and query coordinates are
inherited unchanged, and `p` is strictly above the floor when one is set. -/
def segmentDerivation (e e' : SegTraceEntry) : Prop :=
  ∃ p, e.stats.next_max_price = some p ∧
    e.lowest_seen = some p ∧
    e'.segment.max_price = some p ∧
    e'.segment.min_price = e.segment.min_price ∧
    e'.segment.location_slug = e.segment.location_slug ∧
    e'.segment.operation = e.segment.operation ∧
    e'.segment.property_type = e.segment.property_type ∧
    (∀ mp, e.segment.min_price = some mp → mp < p)

/-! ## Schema constraints (db/models.py) and the commit boundary -/

/-- The NOT NULL constraints `models.py` declares on `listings` columns that
the embedding represents as optional: `concelho_id` is mapped with
`ForeignKey("concelhos.id"), nullable=False` (models.py line 168); every
other NOT NULL column is non-optional in the embedding by construction. -/
def listingRowSatisfiesNotNull (l : Listing) : Bool := l.concelho_id.isSome

/-- `session.commit()` over the listings table: the flush raises
`IntegrityError` when any pending row violates a NOT NULL constraint. -/
def commitListings (db : Db) : Except String Db :=
  if db.listings.all listingRowSatisfiesNotNull then Except.ok db
  else Except.error "IntegrityError: NOT NULL constraint failed: listings.concelho_id"

/-- `session.query(Concelho).filter_by(slug=...).first()` — the lookup inside
`ListingsScraper._get_concelho` (the per-run cache only memoises it). -/
def findConcelhoBySlug (concelhos : List Concelho) (slug : String) : Option Concelho :=
  concelhos.find? (fun c => c.slug == slug)

/-! ## Run ledger (`ListingsScraper.run`) -/

/-- `models.ScrapeRun`: the columns `ListingsScraper.run` writes. -/
structure ScrapeRunRecord where
  run_type : String
  status : String
  started_at : Nat
  ended_at : Option Nat := none
  error_message : Option String := none
  listings_processed : Nat := 0
  listings_created : Nat := 0
  listings_updated : Nat := 0
  deriving Repr, DecidableEq

/-- The per-location statistics dictionary returned by `_scrape_location`. -/
structure LocStats where
  processed : Nat := 0
  created : Nat := 0
  updated : Nat := 0
  pages : Nat := 0
  segments : Nat := 0
  deriving Repr, DecidableEq

/-- The combination loop inside the `try` of `ListingsScraper.run`: each
`_scrape_location` call either returns its statistics or raises; the loop
adds the three listing counters and stops at the first exception. -/
def accumWorks : List (Except String LocStats) → Nat × Nat × Nat →
    (Nat × Nat × Nat) × Option String
  | [], acc => (acc, none)
  | Except.ok s :: rest, acc =>
    accumWorks rest (acc.1 + s.processed, acc.2.1 + s.created, acc.2.2 + s.updated)
  | Except.error e :: _rest, acc => (acc, some e)

/-- The statistics of the successfully processed prefix of the work list. -/
def okPrefix (works : List (Except String LocStats)) : List LocStats :=
  (works.takeWhile (fun w => match w with | Except.ok _ => true | _ => false)).filterMap
    (fun w => match w with | Except.ok s => some s | _ => none)

/-- The first exception raised in the work list, if any. -/
def firstError : List (Except String LocStats) → Option String
  | [] => none
  | Except.ok _ :: rest => firstError rest
  | Except.error e :: _ => some e

/-- `ListingsScraper.run`: create the ledger row with `status="running"` and
commit; process every location/operation/property-type combination; on
success commit the final counters with `status="success"`; on an unhandled
exception commit `status="failed"` with the exception text and re-raise.
Returns the list of committed ledger states in commit order, and the
function's outcome (`Except.error` models the re-raise, which the source
performs only after the failed status is committed). -/
def runListingsScraper (works : List (Except String LocStats)) (t0 t1 : Nat) :
    List ScrapeRunRecord × Except String (Nat × Nat × Nat) :=
  let r0 : ScrapeRunRecord := { run_type := "scrape", status := "running", started_at := t0 }
  let a := accumWorks works (0, 0, 0)
  match a.2 with
  | none =>
    let r1 := { r0 with
      status := "success", ended_at := some t1,
      listings_processed := a.1.1, listings_created := a.1.2.1,
      listings_updated := a.1.2.2 }
    ([r0, r1], Except.ok a.1)
  | some e =>
    let r1 := { r0 with
      status := "failed", error_message := some e, ended_at := some t1,
      listings_processed := a.1.1, listings_created := a.1.2.1,
      listings_updated := a.1.2.2 }
    ([r0, r1], Except.error e)

/-! ## Pre-scraper (pre_scraper.py) -/

/-- `models.District` (the columns the pre-scraper writes).  The source
creates the row without an id and immediately flushes to obtain one; the
embedding assigns the autoincrement id at creation, which is observably the
same. -/
structure District where
  id : Nat
  name : String
  slug : String
  listing_count : Option Nat := none
  last_scraped : Option Nat := none
  deriving Repr, DecidableEq

/-- `selectors.ParsedConcelhoLink`. -/
structure ParsedConcelhoLink where
  name : String
  slug : String
  href : String
  deriving Repr, DecidableEq

/-- `selectors.ParsedDistrictInfo`. -/
structure ParsedDistrictInfo where
  name : String
  slug : String
  concelhos : List ParsedConcelhoLink := []
  listing_count : Option Nat := none
  deriving Repr, DecidableEq

/-- The geography store seen by the pre-scraper. -/
structure GeoDb where
  districts : List District
  concelhos : List Concelho
  nextId : Nat
  deriving Repr, DecidableEq

/-- The statistics dictionary of `PreScraper._process_district` and
`PreScraper.run`, kept as an association list in the source's insertion
order so that the dictionary's own truthiness (`if stats`) is expressible. -/
def preStatsInit : List (String × Nat) :=
  [("districts_created", 0), ("districts_updated", 0),
   ("concelhos_created", 0), ("concelhos_updated", 0)]

/-- Dictionary write `stats[key] = v` (all keys used exist in the dict). -/
def setStat (stats : List (String × Nat)) (key : String) (v : Nat) :
    List (String × Nat) :=
  stats.map (fun kv => if kv.1 == key then (kv.1, v) else kv)

/-- Dictionary read `stats.get(key, 0)`. -/
def getStat (stats : List (String × Nat)) (key : String) : Nat :=
  match stats.find? (fun kv => kv.1 == key) with
  | some kv => kv.2
  | none => 0

/-- `PreScraper._upsert_district`: keyed on `slug`; update name, listing
count (only when the parse has one) and `last_scraped`, or create. -/
def upsertDistrict (geo : GeoDb) (info : ParsedDistrictInfo) (now : Nat) :
    GeoDb × District :=
  match geo.districts.find? (fun d => d.slug == info.slug) with
  | some existing =>
    let d := { existing with
      name := info.name,
      listing_count := (match info.listing_count with
        | some n => some n
        | none => existing.listing_count),
      last_scraped := some now }
    let ds := geo.districts.map (fun x => if x.slug == info.slug then d else x)
    ({ geo with districts := ds }, d)
  | none =>
    let d : District := { id := geo.nextId
                          name := info.name
                          slug := info.slug
                          listing_count := info.listing_count
                          last_scraped := some now }
    ({ geo with districts := geo.districts ++ [d], nextId := geo.nextId + 1 }, d)

/-- `PreScraper._upsert_concelho`: keyed on `slug`; `true` means created. -/
def upsertConcelho (geo : GeoDb) (district : District) (link : ParsedConcelhoLink)
    (now : Nat) : GeoDb × Bool :=
  match geo.concelhos.find? (fun c => c.slug == link.slug) with
  | some _existing =>
    let upd := fun (x : Concelho) =>
      if x.slug == link.slug then
        { x with
          name := link.name, district_id := some district.id,
          last_scraped := some now }
      else x
    ({ geo with concelhos := geo.concelhos.map upd }, false)
  | none =>
    let c : Concelho := { id := geo.nextId
                          district_id := some district.id
                          name := link.name
                          slug := link.slug
                          last_scraped := some now }
    ({ geo with concelhos := geo.concelhos ++ [c], nextId := geo.nextId + 1 }, true)

/-- The concelho loop of `_process_district`. -/
def concelhoLoop (district : District) (now : Nat) :
    List ParsedConcelhoLink → GeoDb → List (String × Nat) → GeoDb × List (String × Nat)
  | [], geo, stats => (geo, stats)
  | link :: rest, geo, stats =>
    let r := upsertConcelho geo district link now
    let stats := if r.2 then
        setStat stats ("concelhos_created") (getStat stats ("concelhos_created") + 1)
      else
        setStat stats ("concelhos_updated") (getStat stats ("concelhos_updated") + 1)
    concelhoLoop district now rest r.1 stats

/-- `PreScraper._process_district`.  After the district upsert the source
executes `stats["districts_created" if stats else "districts_updated"] = 1`:
the condition is the truthiness of the (four-key, hence never empty) stats
dictionary itself, not whether the district already existed.
`fetchedConcelhos` models `_fetch_concelhos_for_district`, consulted only
when the homepage parse carried no concelhos. -/
def processDistrict (geo : GeoDb) (info : ParsedDistrictInfo)
    (fetchedConcelhos : List ParsedConcelhoLink) (now : Nat) :
    GeoDb × List (String × Nat) :=
  let stats := preStatsInit
  let r := upsertDistrict geo info now
  let stats := setStat stats
    (if !stats.isEmpty then "districts_created" else "districts_updated") 1
  let concelhos := if info.concelhos.isEmpty then fetchedConcelhos else info.concelhos
  concelhoLoop r.2 now concelhos r.1 stats

/-- The district loop of `PreScraper.run`: process each parsed district and
add its statistics into the run totals
(`for key in stats: stats[key] += district_stats.get(key, 0)`). -/
def addStats (a b : List (String × Nat)) : List (String × Nat) :=
  a.map (fun kv => (kv.1, kv.2 + getStat b kv.1))

/-- `PreScraper.run`'s district loop, threading the store and the totals. -/
def preScraperLoop (now : Nat) :
    List (ParsedDistrictInfo × List ParsedConcelhoLink) → GeoDb →
    List (String × Nat) → GeoDb × List (String × Nat)
  | [], geo, stats => (geo, stats)
  | (info, fetched) :: rest, geo, stats =>
    let r := processDistrict geo info fetched now
    preScraperLoop now rest r.1 (addStats stats r.2)

/-- `PreScraper.run`'s statistics: totals over all parsed districts. -/
def preScraperRun (geo : GeoDb)
    (districts : List (ParsedDistrictInfo × List ParsedConcelhoLink)) (now : Nat) :
    GeoDb × List (String × Nat) :=
  preScraperLoop now districts geo preStatsInit

/-- The shape every pre-scraper statistics dictionary keeps: the four keys
in insertion order. -/
def mkPreStats (dc du cc cu : Nat) : List (String × Nat) :=
  [("districts_created", dc), ("districts_updated", du),
   ("concelhos_created", cc), ("concelhos_updated", cu)]

/-! ## Details scraper free-text enrichment (details_scraper.py) -/

/-- Python `str.strip()`. -/
def pyStrip (s : String) : String :=
  String.mk (((s.data.dropWhile pySpace).reverse.dropWhile pySpace).reverse)

/-- `re.search(r"([\d.,]+)", s)`: the first maximal `[\d.,]` run. -/
def firstAreaRun : List Char → Option (List Char)
  | [] => none
  | c :: rest =>
    if areaChar c then some ((c :: rest).takeWhile areaChar) else firstAreaRun rest

/-- Python `str.isdigit()` (ASCII digits). -/
def pyIsDigit (s : String) : Bool := !s.data.isEmpty && s.data.all Char.isDigit

/-- Python `int(s.strip())` for the year strings; `none` models `ValueError`
(sign handling is irrelevant to the claims: only digit strings occur). -/
def pyInt (s : String) : Option Nat :=
  let t := pyStrip s
  if !t.data.isEmpty && t.data.all Char.isDigit then some (digitsToNat t.data) else none

/-- `value_lower in ("sim", "yes", "true", "1")`. -/
def valueIsYes (vl : String) : Bool :=
  vl == "sim" || vl == "yes" || vl == "true" || vl == "1"

/-- The `[A-Ga-g]` class of `_normalize_energy_class`. -/
def isEnergyLetter (c : Char) : Bool :=
  ('A' ≤ c && c ≤ 'G') || ('a' ≤ c && c ≤ 'g')

/-- `re.search(r"([A-Ga-g])([+-])?", s)`: leftmost energy letter and its
optional `+`/`-` modifier. -/
def searchEnergyClass : List Char → Option (Char × Option Char)
  | [] => none
  | c :: rest =>
    if isEnergyLetter c then
      some (c, match rest with
        | m :: _ => if m = '+' || m = '-' then some m else none
        | [] => none)
    else searchEnergyClass rest

/-- `DetailsScraper._normalize_energy_class`. -/
def normalizeEnergyClass (s : String) : String :=
  if s.isEmpty then ""
  else match searchEnergyClass s.data with
    | some lm =>
      String.mk (Char.toUpper lm.1 :: (match lm.2 with | some m => [m] | none => []))
    | none => pyUpper (pyStrip s)

/-- `_parse_features` bedrooms block. -/
def featBedrooms (l : Listing) (fl : String) : Listing :=
  if strContains fl ("quarto") && l.bedrooms.isNone then
    match searchNumBefore (("quarto" : String).data) fl.data with
    | some run => { l with bedrooms := some (digitsToNat run) }
    | none => l
  else l

/-- `_parse_features` bathrooms block. -/
def featBathrooms (l : Listing) (fl : String) : Listing :=
  if (strContains fl ("casas de banho") || strContains fl ("casa de banho") ||
      strContains fl ("wc")) && l.bathrooms.isNone then
    match firstDigitRun fl.data with
    | some run => { l with bathrooms := some (digitsToNat run) }
    | none => l
  else l

/-- `_parse_features` area block (útil goes to `area_useful`, otherwise
`area_gross`, each only when still null). -/
def featArea (l : Listing) (fl : String) : Listing :=
  if strContains fl ("m²") then
    match searchAreaRun fl.data with
    | some run =>
      match pyFloat (pyReplaceDots run) with
      | some area =>
        if strContains fl ("útil") && l.area_useful.isNone then
          { l with area_useful := some area }
        else if l.area_gross.isNone then { l with area_gross := some area }
        else l
      | none => l
    | none => l
  else l

/-- `_parse_features` floor block. -/
def featFloor (l : Listing) (feature fl : String) : Listing :=
  if (strContains fl ("andar") || strContains fl ("rés") || strContains fl ("cave")) &&
      l.floor.isNone then
    { l with floor := some (pyStrip feature) }
  else l

/-- `_parse_features` typology block (`re.match(r"^t\d", fl)`). -/
def featTypology (l : Listing) (feature fl : String) : Listing :=
  if (match fl.data with
      | t :: d :: _ => t = 't' && d.isDigit
      | _ => false) && l.typology.isNone then
    { l with typology := some (pyUpper feature) }
  else l

/-- `_parse_features` garage block. -/
def featGarage (l : Listing) (fl : String) : Listing :=
  if strContains fl ("garagem") || strContains fl ("lugar de garagem") then
    { l with has_garage := some true }
  else l

/-- `_parse_features` elevator block. -/
def featElevator (l : Listing) (fl : String) : Listing :=
  if strContains fl ("elevador") then { l with has_elevator := some true } else l

/-- `_parse_features` condition block. -/
def featCondition (l : Listing) (feature fl : String) : Listing :=
  if strContains fl ("estado") && l.condition.isNone then
    { l with condition := some (pyStrip feature) }
  else l

/-- One iteration of the `_parse_features` loop: the source's independent
`if` blocks applied in order to the current listing state. -/
def featStep (l : Listing) (feature : String) : Listing :=
  let fl := pyLower feature
  let l := featBedrooms l fl
  let l := featBathrooms l fl
  let l := featArea l fl
  let l := featFloor l feature fl
  let l := featTypology l feature fl
  let l := featGarage l fl
  let l := featElevator l fl
  featCondition l feature fl

/-- `DetailsScraper._parse_features`. -/
def parseFeatures (l : Listing) (features_raw : List String) : Listing :=
  features_raw.foldl featStep l

/-- `_parse_equipment` air-conditioning block. -/
def equipAC (l : Listing) (il : String) : Listing :=
  if strContains il ("ar condicionado") then
    { l with has_air_conditioning := some true }
  else l

/-- `_parse_equipment` pool block. -/
def equipPool (l : Listing) (il : String) : Listing :=
  if strContains il ("piscina") then { l with has_pool := some true } else l

/-- `_parse_equipment` garden block. -/
def equipGarden (l : Listing) (il : String) : Listing :=
  if strContains il ("jardim") then { l with has_garden := some true } else l

/-- `_parse_equipment` terrace block. -/
def equipTerrace (l : Listing) (il : String) : Listing :=
  if strContains il ("terraço") || strContains il ("terraco") then
    { l with has_terrace := some true }
  else l

/-- `_parse_equipment` balcony block. -/
def equipBalcony (l : Listing) (il : String) : Listing :=
  if strContains il ("varanda") then { l with has_balcony := some true } else l

/-- `_parse_equipment` central-heating block. -/
def equipHeating (l : Listing) (il : String) : Listing :=
  if strContains il ("aquecimento") then { l with has_central_heating := some true } else l

/-- One iteration of the `_parse_equipment` loop. -/
def equipStep (l : Listing) (item : String) : Listing :=
  let il := pyLower item
  let l := equipAC l il
  let l := equipPool l il
  let l := equipGarden l il
  let l := equipTerrace l il
  let l := equipBalcony l il
  equipHeating l il

/-- `DetailsScraper._parse_equipment`. -/
def parseEquipment (l : Listing) (equipment : List String) : Listing :=
  equipment.foldl equipStep l

/-- `_parse_characteristics` year-built block (no null guard: assigned on
every successful parse). -/
def charYear (l : Listing) (kl value : String) : Listing :=
  if strContains kl ("ano") &&
      (strContains kl ("construção") || strContains kl ("construcao")) then
    match pyInt value with
    | some n => { l with year_built := some n }
    | none => l
  else l

/-- `_parse_characteristics` condition block (null-guarded). -/
def charCondition (l : Listing) (kl value : String) : Listing :=
  if strContains kl ("estado") && l.condition.isNone then
    { l with condition := some (pyStrip value) }
  else l

/-- `_parse_characteristics` elevator block (unconditional assignment). -/
def charElevator (l : Listing) (kl vl : String) : Listing :=
  if strContains kl ("elevador") then { l with has_elevator := some (valueIsYes vl) }
  else l

/-- `_parse_characteristics` garage/parking block (unconditional). -/
def charGarage (l : Listing) (kl vl : String) : Listing :=
  if strContains kl ("garagem") || strContains kl ("estacionamento") ||
      strContains kl ("parque") then
    { l with has_garage := some (valueIsYes vl || pyIsDigit vl) }
  else l

/-- `_parse_characteristics` pool block (unconditional). -/
def charPool (l : Listing) (kl vl : String) : Listing :=
  if strContains kl ("piscina") then { l with has_pool := some (valueIsYes vl) } else l

/-- `_parse_characteristics` garden block (unconditional). -/
def charGarden (l : Listing) (kl vl : String) : Listing :=
  if strContains kl ("jardim") then { l with has_garden := some (valueIsYes vl) } else l

/-- `_parse_characteristics` terrace block (unconditional). -/
def charTerrace (l : Listing) (kl vl : String) : Listing :=
  if strContains kl ("terraço") || strContains kl ("terraco") then
    { l with has_terrace := some (valueIsYes vl) }
  else l

/-- `_parse_characteristics` balcony block (unconditional). -/
def charBalcony (l : Listing) (kl vl : String) : Listing :=
  if strContains kl ("varanda") then { l with has_balcony := some (valueIsYes vl) } else l

/-- `_parse_characteristics` air-conditioning block (unconditional). -/
def charAC (l : Listing) (kl vl : String) : Listing :=
  if strContains kl ("ar condicionado") then
    { l with has_air_conditioning := some (valueIsYes vl) }
  else l

/-- `_parse_characteristics` central-heating block (unconditional). -/
def charHeating (l : Listing) (kl vl : String) : Listing :=
  if strContains kl ("aquecimento central") then
    { l with has_central_heating := some (valueIsYes vl) }
  else l

/-- `_parse_characteristics` energy-class block (null-guarded). -/
def charEnergy (l : Listing) (kl value : String) : Listing :=
  if strContains kl ("certificado") && strContains kl ("energ") &&
      l.energy_class.isNone then
    { l with energy_class := some (normalizeEnergyClass value) }
  else l

/-- `_parse_characteristics` price-per-m² block (null-guarded). -/
def charPrice (l : Listing) (kl value : String) : Listing :=
  if strContains kl ("preço") && strContains kl ("m²") && l.price_per_sqm.isNone then
    match firstAreaRun value.data with
    | some run =>
      match pyFloat (pyReplaceDots run) with
      | some p => { l with price_per_sqm := some p }
      | none => l
    | none => l
  else l

/-- One iteration of the `_parse_characteristics` loop over a `(key, value)`
pair, blocks applied in source order. -/
def charStep (l : Listing) (kv : String × String) : Listing :=
  let kl := pyLower kv.1
  let vl := pyLower kv.2
  let l := charYear l kl kv.2
  let l := charCondition l kl kv.2
  let l := charElevator l kl vl
  let l := charGarage l kl vl
  let l := charPool l kl vl
  let l := charGarden l kl vl
  let l := charTerrace l kl vl
  let l := charBalcony l kl vl
  let l := charAC l kl vl
  let l := charHeating l kl vl
  let l := charEnergy l kl kv.2
  charPrice l kl kv.2

/-- `DetailsScraper._parse_characteristics`; the Python dict iterates its
`(key, value)` pairs in insertion order. -/
def parseCharacteristics (l : Listing) (characteristics : List (String × String)) :
    Listing :=
  characteristics.foldl charStep l

/-- The monotone-enrichment property claim C7 asserts of a listing
transformation: the null-guarded fields (bedrooms, bathrooms, the two
areas, floor, typology, condition, energy class, price per m²) keep any
value they already have — first match wins — and the remaining enriched
fields (year built and the boolean amenity flags) are never reset to null,
though their value may be reassigned. -/
def EnrichMono (T : Listing → Listing) : Prop :=
  (∀ l v, l.bedrooms = some v → (T l).bedrooms = some v) ∧
  (∀ l v, l.bathrooms = some v → (T l).bathrooms = some v) ∧
  (∀ l v, l.area_useful = some v → (T l).area_useful = some v) ∧
  (∀ l v, l.area_gross = some v → (T l).area_gross = some v) ∧
  (∀ l v, l.floor = some v → (T l).floor = some v) ∧
  (∀ l v, l.typology = some v → (T l).typology = some v) ∧
  (∀ l v, l.condition = some v → (T l).condition = some v) ∧
  (∀ l v, l.energy_class = some v → (T l).energy_class = some v) ∧
  (∀ l v, l.price_per_sqm = some v → (T l).price_per_sqm = some v) ∧
  (∀ l, l.year_built.isSome → (T l).year_built.isSome) ∧
  (∀ l, l.has_elevator.isSome → (T l).has_elevator.isSome) ∧
  (∀ l, l.has_garage.isSome → (T l).has_garage.isSome) ∧
  (∀ l, l.has_pool.isSome → (T l).has_pool.isSome) ∧
  (∀ l, l.has_garden.isSome → (T l).has_garden.isSome) ∧
  (∀ l, l.has_terrace.isSome → (T l).has_terrace.isSome) ∧
  (∀ l, l.has_balcony.isSome → (T l).has_balcony.isSome) ∧
  (∀ l, l.has_air_conditioning.isSome → (T l).has_air_conditioning.isSome) ∧
  (∀ l, l.has_central_heating.isSome → (T l).has_central_heating.isSome)

/-! ## Concurrency-bounded crawl (async_listings_scraper.py) -/

/-- `async_listings_scraper.FetchResult`.  The parse outcome of the page
stands in for its HTML (the parser is an external collaborator applied
directly after the fetch), and `none` covers both a transport error and an
unparsable page; the `url` field only echoes the request and is omitted. -/
structure FetchResult where
  page_num : Nat
  result : Option (List ParsedListingCard × SearchMetadata)
  deriving Repr, DecidableEq

/-- `AsyncListingsScraper._fetch_pages_batch`: one `FetchResult` per page of
`start..end` (inclusive); `asyncio.gather` returns them in task order. -/
def fetchPagesBatch (fetchParse : Nat → Option (List ParsedListingCard × SearchMetadata))
    (startPage endPage : Nat) : List FetchResult :=
  (List.range' startPage (endPage + 1 - startPage)).map
    (fun p => { page_num := p, result := fetchParse p })

/-- `sorted(results, key=lambda r: r.page_num)` (Python `sorted` is a stable
merge sort, as is `List.mergeSort`). -/
def sortByPage (rs : List FetchResult) : List FetchResult :=
  rs.mergeSort (fun a b => decide (a.page_num ≤ b.page_num))

/-- The async segment's lowest-price update: unlike the sync loop's
`is not None` test, `_scrape_segment_async` uses
`if page_lowest and (lowest_price is None or page_lowest < lowest_price)`,
so a lowest price of `0` is falsy and ignored. -/
def updateLowestAsync (lowest : Option Int) (pageLow : Option Int) : Option Int :=
  match pageLow with
  | some p =>
    if p ≠ 0 then
      match lowest with
      | none => some p
      | some l => if p < l then some p else some l
    else lowest
  | none => lowest

/-- The mutable state of one async segment crawl: the store, the statistics,
the running lowest price, and (instrumentation) the page numbers in
persistence order. -/
structure ASt where
  db : Db
  stats : SegmentStats
  lowest : Option Int
  order : List Nat
  deriving Repr, DecidableEq

/-- The `for result in sorted(results, ...)` body of
`_scrape_segment_async`: skip failed pages, parse, persist
(`_process_page_results`), and update the lowest price. -/
def processResultsSorted (concelho : Option Concelho) (now : Nat) :
    List FetchResult → ASt → ASt
  | [], st => st
  | r :: rest, st =>
    match r.result with
    | none => processResultsSorted concelho now rest st
    | some (cards, md) =>
      let pr := processCards st.db concelho cards now
      let stats := { st.stats with
        processed := st.stats.processed + cards.length,
        created := st.stats.created + pr.2.1,
        updated := st.stats.updated + pr.2.2,
        pages := st.stats.pages + 1 }
      processResultsSorted concelho now rest
        { db := pr.1, stats := stats,
          lowest := updateLowestAsync st.lowest md.lowest_price_on_page,
          order := st.order ++ [r.page_num] }

/-- The `for batch_start in range(2, total_pages + 1, batch_size)` loop of
`_scrape_segment_async`.  `perm s` models the completion order of the
batch starting at `s`: `asyncio.gather` itself returns results in task
order, and the claims quantify over every permutation to show the
subsequent sort makes persistence order independent of completion order.
`fuel` bounds the iterations (the page range is finite; `totalPages`
suffices whenever the batch size is positive). -/
def asyncBatchLoop (fetchParse : Nat → Option (List ParsedListingCard × SearchMetadata))
    (concelho : Option Concelho) (now : Nat)
    (perm : Nat → List FetchResult → List FetchResult) (batchSize totalPages : Nat) :
    Nat → Nat → ASt → ASt
  | 0, _s, st => st
  | fuel + 1, s, st =>
    if s ≤ totalPages then
      let e := min (s + batchSize - 1) totalPages
      let results := perm s (fetchPagesBatch fetchParse s e)
      asyncBatchLoop fetchParse concelho now perm batchSize totalPages fuel (s + batchSize)
        (processResultsSorted concelho now (sortByPage results) st)
    else st

/-- `AsyncListingsScraper._scrape_segment_async`: fetch page 1 alone to
learn the page count, then fetch the remaining pages in concurrent batches
of `2 × concurrency`, sorting each batch by page number before persistence;
finally request segmentation when the page count saturates the limit.
Returns the statistics, the store, and the persisted page order. -/
def asyncScrapeSegment (fetchParse : Nat → Option (List ParsedListingCard × SearchMetadata))
    (cfgMaxPages : Option Nat) (concurrency : Nat)
    (perm : Nat → List FetchResult → List FetchResult)
    (concelho : Option Concelho) (now : Nat) (db : Db) :
    SegmentStats × Db × List Nat :=
  match fetchParse 1 with
  | none => ({}, db, [])
  | some (cards, md) =>
    let pr := processCards db concelho cards now
    let st : ASt :=
      { db := pr.1,
        stats := { processed := cards.length, created := pr.2.1, updated := pr.2.2,
                   pages := 1 },
        lowest := md.lowest_price_on_page,
        order := [1] }
    let maxPages := effectiveMaxPages cfgMaxPages
    let totalPages := min
      (match md.last_page with | some n => if n = 0 then 1 else n | none => 1) maxPages
    if totalPages ≤ 1 || !md.has_next_page then (st.stats, st.db, st.order)
    else
      let st := asyncBatchLoop fetchParse concelho now perm (concurrency * 2) totalPages
        totalPages 2 st
      let stats := if MAX_PAGES_LIMIT ≤ totalPages && st.lowest.isSome then
          { st.stats with next_max_price := st.lowest }
        else st.stats
      (stats, st.db, st.order)

/-- The common abstraction both crawl modes refine: persist the pages of a
list in order, accumulating the listing counters. -/
structure CrawlOut where
  db : Db
  processed : Nat
  created : Nat
  updated : Nat
  pages : Nat
  deriving Repr, DecidableEq

/-- Persist the given pages in list order (skipping unfetchable pages). -/
def crawlPages (fetchParse : Nat → Option (List ParsedListingCard × SearchMetadata))
    (concelho : Option Concelho) (now : Nat) : List Nat → Db → CrawlOut
  | [], db => { db := db, processed := 0, created := 0, updated := 0, pages := 0 }
  | p :: rest, db =>
    match fetchParse p with
    | none => crawlPages fetchParse concelho now rest db
    | some (cards, _md) =>
      let pr := processCards db concelho cards now
      let r := crawlPages fetchParse concelho now rest pr.1
      { r with
        processed := cards.length + r.processed, created := pr.2.1 + r.created,
        updated := pr.2.2 + r.updated, pages := 1 + r.pages }

/-! ## Concrete data used by witnesses and counterexamples -/

/-- A parsed card as produced by the search-results parser (spec scenario,
`external_id = 34609275`). -/
def sampleCardA : ParsedListingCard :=
  { idealista_id := 34609275, url := "/imovel/34609275/", title := "Moradia em Cascais",
    price := some 1500000, operation := "comprar", property_type := "casas",
    details_raw := ["T3", "110 m²"] }

/-- A second card with a distinct external id. -/
def sampleCardB : ParsedListingCard :=
  { idealista_id := 7, url := "/imovel/7/", title := "Apartamento",
    price := some 250000, operation := "comprar", property_type := "casas" }

/-- The spec scenario's second sighting of card A at a lower price. -/
def sampleCardPriceDrop : ParsedListingCard :=
  { sampleCardA with price := some 1450000 }

/-- An empty store. -/
def emptyDb : Db := { listings := [], history := [], nextId := 1 }

/-- A stored row for card A as first seen. -/
def sampleListing : Listing :=
  { id := 1, idealista_id := 34609275, concelho_id := some 3, operation := "comprar",
    property_type := "casas", url := "https://www.idealista.pt/imovel/34609275/",
    title := some "Moradia em Cascais", price := some 1500000,
    first_seen := 0, last_seen := 0, is_active := true }

/-- The initial (unbounded) segment of a location crawl. -/
def segTop : ScrapeSegment :=
  { location_slug := "cascais", operation := "comprar", property_type := "casas" }

/-- Spec scenario site: the first segment has 61 total pages with lowest
price 450000 on every page, the refined segment has 12 pages with lowest
price 200000. -/
def siteC1 : Nat → Nat → Option (List ParsedListingCard × SearchMetadata) :=
  fun i =>
    mkPages (if i = 0 then 61 else 12)
      (fun _ => if i = 0 then some 450000 else some 200000)
      (fun _ => [])

/-- The location crawl of the spec scenario site. -/
def c1Run : Option (List SegTraceEntry × Db) :=
  locLoop siteC1 none none 5 2 0 segTop emptyDb

/-- Counterexample site for C2's strata bound: two successive saturated
segments observe the same lowest price 100, then a 12-page segment closes
the crawl at lowest price 50. -/
def siteC2 : Nat → Nat → Option (List ParsedListingCard × SearchMetadata) :=
  fun i =>
    mkPages (if i ≤ 1 then 61 else 12)
      (fun _ => if i ≤ 1 then some 100 else some 50)
      (fun _ => [])

/-- The location crawl of the C2 counterexample site. -/
def c2Run : Option (List SegTraceEntry × Db) :=
  locLoop siteC2 none none 5 3 0 segTop emptyDb

/-- A store holding the row created for card B when no concelho matched the
location slug. -/
def c5Db : Db :=
  { listings := [createListing (findConcelhoBySlug [] ("nowhere")) sampleCardB 3 1],
    history := [], nextId := 2 }

/-- A successful location outcome used by the run-ledger witness. -/
def sampleLocStats : LocStats :=
  { processed := 5, created := 2, updated := 3, pages := 1, segments := 1 }

/-! ## Lemmas about the upsert engine -/

lemma updateListing_idealista_id (l : Listing) (c : ParsedListingCard) (n : Nat) :
    (updateListing l c n).1.idealista_id = l.idealista_id := by
  simp only [updateListing]
  split <;> split <;> split <;> rfl

lemma findByIdealistaId_eq_none (db : Db) (iid : Nat) :
    findByIdealistaId db iid = none ↔ iid ∉ dbIds db := by
  unfold findByIdealistaId dbIds
  rw [List.find?_eq_none]
  simp [List.mem_map]

lemma upsert_create (db : Db) (concelho : Option Concelho) (card : ParsedListingCard)
    (now : Nat) (h : card.idealista_id ∉ dbIds db) :
    (upsertListingCard db concelho card now).2 = true ∧
    (upsertListingCard db concelho card now).1.listings =
      db.listings ++ [createListing concelho card now db.nextId] ∧
    dbIds (upsertListingCard db concelho card now).1 = dbIds db ++ [card.idealista_id] := by
  have hnone : findByIdealistaId db card.idealista_id = none :=
    (findByIdealistaId_eq_none db card.idealista_id).mpr h
  unfold upsertListingCard
  rw [hnone]
  refine ⟨rfl, rfl, ?_⟩
  show List.map (fun l => l.idealista_id)
      (db.listings ++ [createListing concelho card now db.nextId]) = _
  rw [List.map_append]
  rfl

lemma upsert_update (db : Db) (concelho : Option Concelho) (card : ParsedListingCard)
    (now : Nat) (ex : Listing) (h : findByIdealistaId db card.idealista_id = some ex) :
    (upsertListingCard db concelho card now).2 = false ∧
    dbIds (upsertListingCard db concelho card now).1 = dbIds db ∧
    (upsertListingCard db concelho card now).1.listings.length = db.listings.length := by
  have hex : ex.idealista_id = card.idealista_id := by
    have := List.find?_some h
    exact eq_of_beq this
  unfold upsertListingCard
  rw [h]
  refine ⟨rfl, ?_, by simp⟩
  simp only [dbIds, List.map_map]
  refine List.map_congr_left ?_
  intro x _
  simp only [Function.comp_apply]
  split
  · next hx =>
      rw [updateListing_idealista_id, hex]
      exact (eq_of_beq hx).symm
  · rfl

lemma mem_dbIds_find (db : Db) (iid : Nat) (h : iid ∈ dbIds db) :
    ∃ ex, findByIdealistaId db iid = some ex := by
  cases hf : findByIdealistaId db iid with
  | none => exact absurd ((findByIdealistaId_eq_none db iid).mp hf) (not_not_intro h)
  | some ex => exact ⟨ex, rfl⟩

lemma processCards_fresh (concelho : Option Concelho) (now : Nat) :
    ∀ (cards : List ParsedListingCard) (db : Db),
    (cards.map (fun c => c.idealista_id)).Nodup →
    (∀ c ∈ cards, c.idealista_id ∉ dbIds db) →
    (processCards db concelho cards now).2.1 = cards.length ∧
    (processCards db concelho cards now).2.2 = 0 ∧
    dbIds (processCards db concelho cards now).1 =
      dbIds db ++ cards.map (fun c => c.idealista_id)
  | [], db => by intro _ _; simp [processCards]
  | c :: rest, db => by
    intro hnodup hfresh
    have hc : c.idealista_id ∉ dbIds db := hfresh c (List.mem_cons_self c rest)
    obtain ⟨hcreated, -, hids⟩ := upsert_create db concelho c now hc
    have hrest :
        ∀ c' ∈ rest, c'.idealista_id ∉ dbIds (upsertListingCard db concelho c now).1 := by
      intro c' hc' hmem
      rw [hids, List.mem_append] at hmem
      rcases hmem with hmem | hmem
      · exact hfresh c' (List.mem_cons_of_mem c hc') hmem
      · have : c'.idealista_id = c.idealista_id := List.mem_singleton.mp hmem
        have hne : c.idealista_id ∉ rest.map (fun x => x.idealista_id) :=
          (List.nodup_cons.mp hnodup).1
        exact hne (this ▸ List.mem_map_of_mem (fun x => x.idealista_id) hc')
    obtain ⟨ih1, ih2, ih3⟩ :=
      processCards_fresh concelho now rest (upsertListingCard db concelho c now).1
        (List.nodup_cons.mp hnodup).2 hrest
    simp only [processCards, hcreated, if_true]
    refine ⟨by rw [ih1]; rfl, ih2, ?_⟩
    rw [ih3, hids]
    simp

lemma processCards_existing (concelho : Option Concelho) (now : Nat) :
    ∀ (cards : List ParsedListingCard) (db : Db),
    (∀ c ∈ cards, c.idealista_id ∈ dbIds db) →
    (processCards db concelho cards now).2.1 = 0 ∧
    (processCards db concelho cards now).2.2 = cards.length ∧
    dbIds (processCards db concelho cards now).1 = dbIds db
  | [], db => by intro _; simp [processCards]
  | c :: rest, db => by
    intro hmem
    obtain ⟨ex, hex⟩ := mem_dbIds_find db c.idealista_id (hmem c (List.mem_cons_self c rest))
    obtain ⟨hupd, hids, -⟩ := upsert_update db concelho c now ex hex
    have hrest : ∀ c' ∈ rest, c'.idealista_id ∈ dbIds (upsertListingCard db concelho c now).1 := by
      intro c' hc'
      rw [hids]
      exact hmem c' (List.mem_cons_of_mem c hc')
    obtain ⟨ih1, ih2, ih3⟩ :=
      processCards_existing concelho now rest (upsertListingCard db concelho c now).1 hrest
    simp only [processCards, hupd, Bool.false_eq_true, if_false]
    exact ⟨ih1, by rw [ih2]; rfl, by rw [ih3, hids]⟩

lemma truthyStr_isSome (o : Option String) (h : truthyStr o = true) : o.isSome := by
  cases o <;> simp [truthyStr] at h ⊢

lemma truthyRat_isSome (o : Option Rat) (h : truthyRat o = true) : o.isSome := by
  cases o <;> simp [truthyRat] at h ⊢

lemma truthyNat_isSome (o : Option Nat) (h : truthyNat o = true) : o.isSome := by
  cases o <;> simp [truthyNat] at h ⊢

lemma updateListing_typology (listing : Listing) (card : ParsedListingCard) (now : Nat) :
    (updateListing listing card now).1.typology =
      (if truthyStr (parseDetails card.details_raw).1 then (parseDetails card.details_raw).1
       else listing.typology) := by
  simp only [updateListing]
  split <;> split <;> split <;> simp_all

lemma updateListing_area_gross (listing : Listing) (card : ParsedListingCard) (now : Nat) :
    (updateListing listing card now).1.area_gross =
      (if truthyRat (parseDetails card.details_raw).2.1 then (parseDetails card.details_raw).2.1
       else listing.area_gross) := by
  simp only [updateListing]
  split <;> split <;> split <;> simp_all

lemma updateListing_bedrooms (listing : Listing) (card : ParsedListingCard) (now : Nat) :
    (updateListing listing card now).1.bedrooms =
      (if truthyNat (parseDetails card.details_raw).2.2 then (parseDetails card.details_raw).2.2
       else listing.bedrooms) := by
  simp only [updateListing]
  split <;> split <;> split <;> simp_all

/-! ## Claim C3: upsert keyed strictly on the external id, idempotent re-crawl -/

/-- C3: the upsert keys strictly on the site-assigned external id: an unseen
`idealista_id` creates a row (returns `true`), a stored one updates that row
in place (returns `false`); crawling the same page of N distinct-id cards
twice yields `created = N, updated = 0` then `created = 0, updated = N`,
and the store ends with no duplicate rows. -/
theorem c3_upsert_external_id_idempotent
    (db : Db) (concelho : Option Concelho) (cards : List ParsedListingCard)
    (now now2 : Nat)
    (hdb : (dbIds db).Nodup)
    (hcards : (cards.map (fun c => c.idealista_id)).Nodup)
    (hfresh : ∀ c ∈ cards, c.idealista_id ∉ dbIds db) :
    (∀ (d : Db) (c : ParsedListingCard), c.idealista_id ∉ dbIds d →
      (upsertListingCard d concelho c now).2 = true ∧
      (upsertListingCard d concelho c now).1.listings =
        d.listings ++ [createListing concelho c now d.nextId]) ∧
    (∀ (d : Db) (c : ParsedListingCard), c.idealista_id ∈ dbIds d →
      (upsertListingCard d concelho c now).2 = false ∧
      dbIds (upsertListingCard d concelho c now).1 = dbIds d) ∧
    (processCards db concelho cards now).2.1 = cards.length ∧
    (processCards db concelho cards now).2.2 = 0 ∧
    (processCards (processCards db concelho cards now).1 concelho cards now2).2.1 = 0 ∧
    (processCards (processCards db concelho cards now).1 concelho cards now2).2.2 =
      cards.length ∧
    dbIds (processCards (processCards db concelho cards now).1 concelho cards now2).1 =
      dbIds db ++ cards.map (fun c => c.idealista_id) ∧
    (dbIds (processCards (processCards db concelho cards now).1 concelho
      cards now2).1).Nodup := by
  obtain ⟨h1, h2, h3⟩ := processCards_fresh concelho now cards db hcards hfresh
  have hmem2 : ∀ c ∈ cards,
      c.idealista_id ∈ dbIds (processCards db concelho cards now).1 := by
    intro c hc
    rw [h3, List.mem_append]
    exact Or.inr (List.mem_map_of_mem (fun c => c.idealista_id) hc)
  obtain ⟨g1, g2, g3⟩ :=
    processCards_existing concelho now2 cards (processCards db concelho cards now).1 hmem2
  have hdisj : (dbIds db).Disjoint (cards.map (fun c => c.idealista_id)) := by
    intro a ha hb
    obtain ⟨c, hc, rfl⟩ := List.mem_map.mp hb
    exact hfresh c hc ha
  refine ⟨?_, ?_, h1, h2, g1, g2, by rw [g3, h3], ?_⟩
  · intro d c hc
    obtain ⟨a, b, -⟩ := upsert_create d concelho c now hc
    exact ⟨a, b⟩
  · intro d c hc
    obtain ⟨ex, hex⟩ := mem_dbIds_find d c.idealista_id hc
    obtain ⟨a, b, -⟩ := upsert_update d concelho c now ex hex
    exact ⟨a, b⟩
  · rw [g3, h3]
    exact hdb.append hcards hdisj

/-- Witness for C3 at a concrete two-card page over the empty store. -/
theorem c3_upsert_external_id_idempotent_witness :
    ((dbIds emptyDb).Nodup ∧
      ([sampleCardA, sampleCardB].map (fun c => c.idealista_id)).Nodup ∧
      (∀ c ∈ [sampleCardA, sampleCardB], c.idealista_id ∉ dbIds emptyDb)) ∧
    (processCards emptyDb none [sampleCardA, sampleCardB] 1).2.1 = 2 ∧
    (processCards emptyDb none [sampleCardA, sampleCardB] 1).2.2 = 0 ∧
    (processCards (processCards emptyDb none [sampleCardA, sampleCardB] 1).1 none
      [sampleCardA, sampleCardB] 2).2.1 = 0 ∧
    (processCards (processCards emptyDb none [sampleCardA, sampleCardB] 1).1 none
      [sampleCardA, sampleCardB] 2).2.2 = 2 ∧
    (dbIds (processCards (processCards emptyDb none [sampleCardA, sampleCardB] 1).1 none
      [sampleCardA, sampleCardB] 2).1).Nodup := by
  have h := c3_upsert_external_id_idempotent emptyDb none [sampleCardA, sampleCardB] 1 2
    (by decide) (by decide) (by decide)
  exact ⟨⟨by decide, by decide, by decide⟩,
    h.2.2.1, h.2.2.2.1, h.2.2.2.2.1, h.2.2.2.2.2.1, h.2.2.2.2.2.2.2⟩

/-! ## Claim C4: a history row exactly on price change -/

/-- C4: updating an existing listing with an unchanged price appends no
history row; a changed price appends exactly one history row carrying the
old and new price, and the updated row holds the new price and the
refreshed `last_seen` timestamp. -/
theorem c4_history_exactly_on_price_change
    (listing : Listing) (card : ParsedListingCard) (now : Nat) :
    (card.price = listing.price → (updateListing listing card now).2 = []) ∧
    (card.price ≠ listing.price →
      (updateListing listing card now).2 =
        [{ listing_id := listing.id, price := listing.price, scraped_at := now,
           changes := some { old := listing.price, new := card.price } }]) ∧
    (updateListing listing card now).1.price = card.price ∧
    (updateListing listing card now).1.last_seen = now := by
  refine ⟨fun h => by simp [updateListing, h], fun h => by simp [updateListing, h], ?_, ?_⟩ <;>
    (simp only [updateListing]; split <;> split <;> split <;> rfl)

/-- Witness for C4 at the spec's concrete scenario: `external_id = 34609275`
first seen at 1500000, re-crawled at 1450000. -/
theorem c4_history_exactly_on_price_change_witness :
    (sampleCardPriceDrop.price ≠ sampleListing.price) ∧
    (updateListing sampleListing sampleCardPriceDrop 9).2 =
      [{ listing_id := 1, price := some 1500000, scraped_at := 9,
         changes := some { old := some 1500000, new := some 1450000 } }] ∧
    (updateListing sampleListing sampleCardPriceDrop 9).1.price = some 1450000 ∧
    (updateListing sampleListing sampleCardPriceDrop 9).1.last_seen = 9 := by
  have h := c4_history_exactly_on_price_change sampleListing sampleCardPriceDrop 9
  exact ⟨by decide, h.2.1 (by decide), h.2.2.1, h.2.2.2⟩

/-! ## Claim C6: monotonic enrichment of card-parsed fields on update -/

/-- C6: on update of an existing listing, the typology, gross-area and
bedrooms fields change only when the new parse of the card's raw detail
strings yields a (truthy, hence non-null) value, and a previously non-null
value of any of these fields is never replaced by null. -/
theorem c6_monotonic_enrichment_on_update
    (listing : Listing) (card : ParsedListingCard) (now : Nat) :
    ((updateListing listing card now).1.typology ≠ listing.typology →
      truthyStr (parseDetails card.details_raw).1 = true ∧
      (updateListing listing card now).1.typology = (parseDetails card.details_raw).1) ∧
    ((updateListing listing card now).1.area_gross ≠ listing.area_gross →
      truthyRat (parseDetails card.details_raw).2.1 = true ∧
      (updateListing listing card now).1.area_gross = (parseDetails card.details_raw).2.1) ∧
    ((updateListing listing card now).1.bedrooms ≠ listing.bedrooms →
      truthyNat (parseDetails card.details_raw).2.2 = true ∧
      (updateListing listing card now).1.bedrooms = (parseDetails card.details_raw).2.2) ∧
    (listing.typology.isSome → ((updateListing listing card now).1.typology).isSome) ∧
    (listing.area_gross.isSome → ((updateListing listing card now).1.area_gross).isSome) ∧
    (listing.bedrooms.isSome → ((updateListing listing card now).1.bedrooms).isSome) := by
  rw [updateListing_typology, updateListing_area_gross, updateListing_bedrooms]
  by_cases h1 : truthyStr (parseDetails card.details_raw).1 <;>
    by_cases h2 : truthyRat (parseDetails card.details_raw).2.1 <;>
      by_cases h3 : truthyNat (parseDetails card.details_raw).2.2 <;>
        simp [h1, h2, h3, truthyStr_isSome, truthyRat_isSome, truthyNat_isSome]

/-- Witness for C6 at a concrete listing and card. -/
theorem c6_monotonic_enrichment_on_update_witness :
    ((updateListing sampleListing sampleCardA 9).1.typology ≠ sampleListing.typology →
      truthyStr (parseDetails sampleCardA.details_raw).1 = true ∧
      (updateListing sampleListing sampleCardA 9).1.typology =
        (parseDetails sampleCardA.details_raw).1) ∧
    ((updateListing sampleListing sampleCardA 9).1.area_gross ≠ sampleListing.area_gross →
      truthyRat (parseDetails sampleCardA.details_raw).2.1 = true ∧
      (updateListing sampleListing sampleCardA 9).1.area_gross =
        (parseDetails sampleCardA.details_raw).2.1) ∧
    ((updateListing sampleListing sampleCardA 9).1.bedrooms ≠ sampleListing.bedrooms →
      truthyNat (parseDetails sampleCardA.details_raw).2.2 = true ∧
      (updateListing sampleListing sampleCardA 9).1.bedrooms =
        (parseDetails sampleCardA.details_raw).2.2) ∧
    (sampleListing.typology.isSome →
      ((updateListing sampleListing sampleCardA 9).1.typology).isSome) ∧
    (sampleListing.area_gross.isSome →
      ((updateListing sampleListing sampleCardA 9).1.area_gross).isSome) ∧
    (sampleListing.bedrooms.isSome →
      ((updateListing sampleListing sampleCardA 9).1.bedrooms).isSome) :=
  c6_monotonic_enrichment_on_update sampleListing sampleCardA 9

/-! ## Lemmas about the segmentation engine -/

lemma segLoop_lows (f : Nat → Option (List ParsedListingCard × SearchMetadata))
    (concelho : Option Concelho) (now : Nat) :
    ∀ (fuel page : Nat) (lo : Option Int) (stats : SegmentStats)
      (lows : List (Option Int)) (db : Db),
    ∃ newLows,
      (segLoop f concelho now fuel page lo stats lows db).2.2.1 = lows ++ newLows ∧
      (segLoop f concelho now fuel page lo stats lows db).2.1 =
        List.foldl updateLowest lo newLows
  | 0, _page, lo, stats, lows, db => ⟨[], by simp [segLoop]⟩
  | fuel + 1, page, lo, stats, lows, db => by
    simp only [segLoop]
    cases hf : f page with
    | none => exact ⟨[], by simp⟩
    | some pr =>
      obtain ⟨cards, md⟩ := pr
      by_cases hn : md.has_next_page
      · by_cases hp : MAX_PAGES_LIMIT ≤ page
        · simp only [hn, Bool.not_true, Bool.false_eq_true, if_false, hp, if_true]
          cases hlow : updateLowest lo md.lowest_price_on_page <;>
            exact ⟨[md.lowest_price_on_page], rfl, by rw [List.foldl_cons, List.foldl_nil, hlow]⟩
        · simp only [hn, Bool.not_true, Bool.false_eq_true, if_false, hp]
          obtain ⟨nl, h1, h2⟩ :=
            segLoop_lows f concelho now fuel (page + 1)
              (updateLowest lo md.lowest_price_on_page)
              { stats with
                processed := stats.processed + cards.length,
                created := stats.created + (processCards db concelho cards now).2.1,
                updated := stats.updated + (processCards db concelho cards now).2.2,
                pages := stats.pages + 1 }
              (lows ++ [md.lowest_price_on_page]) (processCards db concelho cards now).1
          exact ⟨md.lowest_price_on_page :: nl,
            by rw [h1, List.append_assoc]; rfl, by rw [h2, List.foldl_cons]⟩
      · simp only [hn, Bool.not_false, if_true]
        exact ⟨[md.lowest_price_on_page], rfl, rfl⟩

lemma segLoop_next_max (f : Nat → Option (List ParsedListingCard × SearchMetadata))
    (concelho : Option Concelho) (now : Nat) :
    ∀ (fuel page : Nat) (lo : Option Int) (stats : SegmentStats)
      (lows : List (Option Int)) (db : Db),
    (segLoop f concelho now fuel page lo stats lows db).1.next_max_price =
        stats.next_max_price ∨
    (segLoop f concelho now fuel page lo stats lows db).1.next_max_price =
        (segLoop f concelho now fuel page lo stats lows db).2.1
  | 0, _page, lo, stats, lows, db => Or.inl rfl
  | fuel + 1, page, lo, stats, lows, db => by
    simp only [segLoop]
    cases hf : f page with
    | none => exact Or.inl rfl
    | some pr =>
      obtain ⟨cards, md⟩ := pr
      by_cases hn : md.has_next_page
      · by_cases hp : MAX_PAGES_LIMIT ≤ page
        · simp only [hn, Bool.not_true, Bool.false_eq_true, if_false, hp, if_true]
          cases hlow : updateLowest lo md.lowest_price_on_page with
          | none => exact Or.inl (by trivial)
          | some lp => exact Or.inr (by trivial)
        · simp only [hn, Bool.not_true, Bool.false_eq_true, if_false, hp, if_false]
          exact segLoop_next_max f concelho now fuel (page + 1)
            (updateLowest lo md.lowest_price_on_page) _ _ _
      · simp only [hn, Bool.not_false, if_true]
        exact Or.inl (by trivial)

lemma scrapeSegment_lowest (f : Nat → Option (List ParsedListingCard × SearchMetadata))
    (cfgMaxPages : Option Nat) (concelho : Option Concelho) (now : Nat) (db : Db) :
    (scrapeSegment f cfgMaxPages concelho now db).2.1 =
      List.foldl updateLowest none (scrapeSegment f cfgMaxPages concelho now db).2.2.1 := by
  obtain ⟨nl, h1, h2⟩ :=
    segLoop_lows f concelho now (effectiveMaxPages cfgMaxPages) 1 none {} [] db
  unfold scrapeSegment
  rw [h1, h2, List.nil_append]

lemma scrapeSegment_next_max (f : Nat → Option (List ParsedListingCard × SearchMetadata))
    (cfgMaxPages : Option Nat) (concelho : Option Concelho) (now : Nat) (db : Db)
    (p : Int)
    (h : (scrapeSegment f cfgMaxPages concelho now db).1.next_max_price = some p) :
    (scrapeSegment f cfgMaxPages concelho now db).2.1 = some p := by
  rcases segLoop_next_max f concelho now (effectiveMaxPages cfgMaxPages) 1 none {} [] db with
    hl | hr
  · rw [scrapeSegment] at h
    rw [hl] at h
    exact absurd h (by simp)
  · rw [scrapeSegment] at h ⊢
    rw [hr] at h
    exact h

lemma locLoop_first (site : Nat → Nat → Option (List ParsedListingCard × SearchMetadata))
    (cfgMaxPages : Option Nat) (concelho : Option Concelho) (now : Nat) :
    ∀ (fuel i : Nat) (seg : ScrapeSegment) (db : Db) (trace : List SegTraceEntry) (db' : Db),
    locLoop site cfgMaxPages concelho now fuel i seg db = some (trace, db') →
    ∃ rest, trace =
      { segment := seg,
        stats := (scrapeSegment (site i) cfgMaxPages concelho now db).1,
        lowest_seen := (scrapeSegment (site i) cfgMaxPages concelho now db).2.1,
        page_lows := (scrapeSegment (site i) cfgMaxPages concelho now db).2.2.1 } :: rest
  | 0, _i, _seg, _db, _trace, _db', h => by simp [locLoop] at h
  | fuel + 1, i, seg, db, trace, db', h => by
    simp only [locLoop] at h
    split at h
    · obtain ⟨h1, -⟩ := Prod.mk.injEq .. ▸ (Option.some_inj.mp h)
      exact ⟨[], h1.symm⟩
    · split at h
      · obtain ⟨h1, -⟩ := Prod.mk.injEq .. ▸ (Option.some_inj.mp h)
        exact ⟨[], h1.symm⟩
      · obtain ⟨a, -, hfa⟩ := Option.map_eq_some'.mp h
        obtain ⟨h1, -⟩ := Prod.mk.injEq .. ▸ hfa
        exact ⟨a.1, h1.symm⟩

lemma locLoop_chain (site : Nat → Nat → Option (List ParsedListingCard × SearchMetadata))
    (cfgMaxPages : Option Nat) (concelho : Option Concelho) (now : Nat) :
    ∀ (fuel i : Nat) (seg : ScrapeSegment) (db : Db) (trace : List SegTraceEntry) (db' : Db),
    locLoop site cfgMaxPages concelho now fuel i seg db = some (trace, db') →
    (∀ e ∈ trace, e.lowest_seen = List.foldl updateLowest none e.page_lows) ∧
    List.Chain' segmentDerivation trace
  | 0, _i, _seg, _db, _trace, _db', h => by simp [locLoop] at h
  | fuel + 1, i, seg, db, trace, db', h => by
    simp only [locLoop] at h
    split at h
    · obtain ⟨h1, -⟩ := Prod.mk.injEq .. ▸ (Option.some_inj.mp h)
      subst h1
      refine ⟨?_, List.chain'_singleton _⟩
      intro e he
      rw [List.mem_singleton.mp he]
      exact scrapeSegment_lowest (site i) cfgMaxPages concelho now db
    · next nmp hnm =>
      split at h
      · obtain ⟨h1, -⟩ := Prod.mk.injEq .. ▸ (Option.some_inj.mp h)
        subst h1
        refine ⟨?_, List.chain'_singleton _⟩
        intro e he
        rw [List.mem_singleton.mp he]
        exact scrapeSegment_lowest (site i) cfgMaxPages concelho now db
      · next hstop =>
        obtain ⟨a, ha, hfa⟩ := Option.map_eq_some'.mp h
        obtain ⟨h1, -⟩ := Prod.mk.injEq .. ▸ hfa
        subst h1
        obtain ⟨hall, hchain⟩ :=
          locLoop_chain site cfgMaxPages concelho now fuel (i + 1)
            { seg with max_price := some nmp }
            (scrapeSegment (site i) cfgMaxPages concelho now db).2.2.2 a.1 a.2 ha
        obtain ⟨rest, hrest⟩ :=
          locLoop_first site cfgMaxPages concelho now fuel (i + 1)
            { seg with max_price := some nmp }
            (scrapeSegment (site i) cfgMaxPages concelho now db).2.2.2 a.1 a.2 ha
        constructor
        · intro e he
          rcases List.mem_cons.mp he with he | he
          · rw [he]
            exact scrapeSegment_lowest (site i) cfgMaxPages concelho now db
          · exact hall e he
        · rw [hrest]
          rw [hrest] at hchain
          refine List.Chain'.cons ?_ hchain
          refine ⟨nmp, hnm, scrapeSegment_next_max _ _ _ _ _ _ hnm, rfl, rfl, rfl, rfl, rfl, ?_⟩
          intro mp hmp
          rw [hmp] at hstop
          simp only [decide_eq_true_eq] at hstop
          omega

/-! ## Claim C1: price-monotonic segmentation boundary -/

/-- C1: along any terminating location crawl, every derived segment's
`max_price` equals the previous crawl's `lowest_price_seen` (which is the
fold of the per-page lowest prices it observed), its `min_price` and query
coordinates are inherited unchanged, the boundary is strictly above the
floor `min_price` whenever one is set, and a computed `next_max_price` at or
below the floor ends the trace instead of emitting a further segment. -/
theorem c1_price_monotonic_boundary
    (site : Nat → Nat → Option (List ParsedListingCard × SearchMetadata))
    (cfgMaxPages : Option Nat) (concelho : Option Concelho) (now fuel i : Nat)
    (seg : ScrapeSegment) (db : Db) (trace : List SegTraceEntry) (db' : Db)
    (h : locLoop site cfgMaxPages concelho now fuel i seg db = some (trace, db')) :
    (∀ e ∈ trace, e.lowest_seen = List.foldl updateLowest none e.page_lows) ∧
    List.Chain' segmentDerivation trace ∧
    (∀ (k : Nat) (hk : k < trace.length) (p mp : Int),
      (trace.get ⟨k, hk⟩).stats.next_max_price = some p →
      (trace.get ⟨k, hk⟩).segment.min_price = some mp →
      p ≤ mp → k + 1 = trace.length) := by
  obtain ⟨hall, hchain⟩ :=
    locLoop_chain site cfgMaxPages concelho now fuel i seg db trace db' h
  refine ⟨hall, hchain, ?_⟩
  intro k hk p mp hnext hmin hple
  by_contra hne
  have hk1 : k < trace.length - 1 := by omega
  have hR := List.chain'_iff_get.mp hchain k hk1
  obtain ⟨q, hq1, -, -, -, -, -, -, hfloor⟩ := hR
  rw [hnext] at hq1
  obtain rfl : p = q := Option.some_inj.mp hq1
  exact absurd hple (not_le.mpr (hfloor mp hmin))

/-- Witness for C1: the spec's concrete scenario (61 pages at lowest 450000,
then 12 pages at lowest 200000) derives exactly one further segment with
`max_price = 450000` and then stops. -/
theorem c1_price_monotonic_boundary_witness :
    locLoop siteC1 none none 5 2 0 segTop emptyDb =
      some ((c1Run.getD ([], emptyDb)).1, (c1Run.getD ([], emptyDb)).2) ∧
    ((c1Run.getD ([], emptyDb)).1.map
      (fun e => (e.segment.max_price, e.segment.min_price, e.stats.next_max_price))) =
      [(none, none, some 450000), (some 450000, none, none)] ∧
    List.Chain' segmentDerivation (c1Run.getD ([], emptyDb)).1 ∧
    (∀ e ∈ (c1Run.getD ([], emptyDb)).1,
      e.lowest_seen = List.foldl updateLowest none e.page_lows) := by
  have h : locLoop siteC1 none none 5 2 0 segTop emptyDb =
      some ((c1Run.getD ([], emptyDb)).1, (c1Run.getD ([], emptyDb)).2) := by
    rfl
  have hc := c1_price_monotonic_boundary siteC1 none none 5 2 0 segTop emptyDb
    (c1Run.getD ([], emptyDb)).1 (c1Run.getD ([], emptyDb)).2 h
  exact ⟨h, by decide, hc.2.1, hc.1⟩

/-! ## Lemmas for segmentation termination (claim C2) -/

lemma segLoop_no_next_of_small (tp : Nat) (lows : Nat → Option Int)
    (cards : Nat → List ParsedListingCard) (concelho : Option Concelho) (now : Nat)
    (htp : tp ≤ MAX_PAGES_LIMIT) :
    ∀ (fuel page : Nat) (lo : Option Int) (stats : SegmentStats)
      (lowsAcc : List (Option Int)) (db : Db),
    stats.next_max_price = none →
    (segLoop (mkPages tp lows cards) concelho now fuel page lo stats lowsAcc db).1.next_max_price
      = none
  | 0, _page, _lo, _stats, _lowsAcc, _db, hstats => hstats
  | fuel + 1, page, lo, stats, lowsAcc, db, hstats => by
    simp only [segLoop, mkPages]
    by_cases hlt : page < tp
    · have hp : ¬MAX_PAGES_LIMIT ≤ page := by omega
      simp only [decide_eq_true hlt, Bool.not_true, Bool.false_eq_true, if_false, hp]
      exact segLoop_no_next_of_small tp lows cards concelho now htp fuel (page + 1)
        (updateLowest lo (lows page)) _ _ _ hstats
    · simp only [decide_eq_false hlt, Bool.not_false, if_true]
      exact hstats

lemma scrapeSegment_no_next_of_small (tp : Nat) (lows : Nat → Option Int)
    (cards : Nat → List ParsedListingCard) (cfgMaxPages : Option Nat)
    (concelho : Option Concelho) (now : Nat) (db : Db)
    (htp : tp ≤ MAX_PAGES_LIMIT) :
    (scrapeSegment (mkPages tp lows cards) cfgMaxPages concelho now db).1.next_max_price
      = none :=
  segLoop_no_next_of_small tp lows cards concelho now htp
    (effectiveMaxPages cfgMaxPages) 1 none {} [] db rfl

lemma locLoop_terminates (site : Nat → Nat → Option (List ParsedListingCard × SearchMetadata))
    (cfgMaxPages : Option Nat) (concelho : Option Concelho) (now : Nat) :
    ∀ (fuel i : Nat) (seg : ScrapeSegment) (db : Db),
    (∃ j, j < fuel ∧ ∀ db0 : Db,
      (scrapeSegment (site (i + j)) cfgMaxPages concelho now db0).1.next_max_price = none) →
    ∃ trace db',
      locLoop site cfgMaxPages concelho now fuel i seg db = some (trace, db') ∧
      trace.length ≤ fuel
  | 0, _i, _seg, _db, h => absurd h.choose_spec.1 (Nat.not_lt_zero _)
  | fuel + 1, i, seg, db, h => by
    obtain ⟨j, hj, hnone⟩ := h
    cases hnm : (scrapeSegment (site i) cfgMaxPages concelho now db).1.next_max_price with
    | none =>
      have heval : locLoop site cfgMaxPages concelho now (fuel + 1) i seg db =
          some ([{ segment := seg,
                   stats := (scrapeSegment (site i) cfgMaxPages concelho now db).1,
                   lowest_seen := (scrapeSegment (site i) cfgMaxPages concelho now db).2.1,
                   page_lows := (scrapeSegment (site i) cfgMaxPages concelho now db).2.2.1 }],
                (scrapeSegment (site i) cfgMaxPages concelho now db).2.2.2) := by
        simp only [locLoop, hnm]
      exact ⟨_, _, heval, by simp⟩
    | some nmp =>
      have hj0 : j ≠ 0 := by
        intro h0
        rw [h0, Nat.add_zero] at hnone
        rw [hnone db] at hnm
        exact Option.noConfusion hnm
      cases hstop :
          (match seg.min_price with
           | some mp => decide (nmp ≤ mp)
           | none => false) with
      | true =>
        have heval : locLoop site cfgMaxPages concelho now (fuel + 1) i seg db =
            some ([{ segment := seg,
                     stats := (scrapeSegment (site i) cfgMaxPages concelho now db).1,
                     lowest_seen := (scrapeSegment (site i) cfgMaxPages concelho now db).2.1,
                     page_lows := (scrapeSegment (site i) cfgMaxPages concelho now db).2.2.1 }],
                  (scrapeSegment (site i) cfgMaxPages concelho now db).2.2.2) := by
          simp only [locLoop, hnm, hstop, if_true]
        exact ⟨_, _, heval, by simp⟩
      | false =>
        obtain ⟨trace', db'', heq, hlen⟩ :=
          locLoop_terminates site cfgMaxPages concelho now fuel (i + 1)
            { seg with max_price := some nmp }
            (scrapeSegment (site i) cfgMaxPages concelho now db).2.2.2
            ⟨j - 1, by omega, by
              intro db0
              have hji : i + 1 + (j - 1) = i + j := by omega
              rw [hji]
              exact hnone db0⟩
        have heval : locLoop site cfgMaxPages concelho now (fuel + 1) i seg db =
            some ({ segment := seg,
                    stats := (scrapeSegment (site i) cfgMaxPages concelho now db).1,
                    lowest_seen := (scrapeSegment (site i) cfgMaxPages concelho now db).2.1,
                    page_lows := (scrapeSegment (site i) cfgMaxPages concelho now db).2.2.1 }
                  :: trace', db'') := by
          simp only [locLoop, hnm, hstop, Bool.false_eq_true, if_false, heq]
          rfl
        exact ⟨_, _, heval, by simpa using Nat.succ_le_succ hlen⟩

lemma filterMap_id_all_some :
    ∀ (l : List (Option Int)), (∀ o ∈ l, o.isSome) → l.Nodup →
    (l.filterMap id).length = l.length ∧ (l.filterMap id).Nodup
  | [], _, _ => by simp
  | o :: t, hall, hnodup => by
    obtain ⟨a, rfl⟩ := Option.isSome_iff_exists.mp (hall o (List.mem_cons_self o t))
    obtain ⟨ih1, ih2⟩ := filterMap_id_all_some t
      (fun o' ho' => hall o' (List.mem_cons_of_mem _ ho'))
      (List.nodup_cons.mp hnodup).2
    have hmem : a ∉ t.filterMap id := by
      intro hmem
      obtain ⟨o', ho', ho'a⟩ := List.mem_filterMap.mp hmem
      have : o' = some a := ho'a
      exact (List.nodup_cons.mp hnodup).1 (this ▸ ho')
    refine ⟨?_, ?_⟩
    · simp [List.filterMap_cons, ih1]
    · simpa [List.filterMap_cons, List.nodup_cons, hmem] using ih2

/-! ## Claim C2: segmentation termination and the strata bound (corrected) -/

/-- Counterexample to C2 as stated: two successive saturated segments both
observe lowest price 100, then a 12-page segment closes the crawl; the loop
crawls 3 segments while the responses contain only 2 distinct price strata,
so the segment count is *not* bounded by the number of distinct strata. -/
theorem c2_strata_bound_counterexample :
    (c2Run.map (fun p => p.1.length)) = some 3 ∧
    (c2Run.getD ([], emptyDb)).1.map (fun e => (e.stats.pages, e.lowest_seen)) =
      [(60, some 100), (60, some 100), (12, some 50)] ∧
    ((c2Run.getD ([], emptyDb)).1.filterMap (fun e => e.lowest_seen)).dedup.length = 2 ∧
    ¬((c2Run.getD ([], emptyDb)).1.length ≤
      ((c2Run.getD ([], emptyDb)).1.filterMap (fun e => e.lowest_seen)).dedup.length) := by
  refine ⟨by decide, by decide, by decide, by decide⟩

/-- C2 (amended): for responses whose total page count is ≤ 60 at segment
index `i0`, the location loop terminates within `i0 + 1` segments; and the
segment count is bounded by the number of distinct price strata whenever
every crawled segment observed at least one price and the per-segment
lowest observed prices are pairwise distinct (without that distinctness the
bound fails, see the counterexample). -/
theorem c2_segmentation_terminates (tp : Nat → Nat) (lows : Nat → Nat → Option Int)
    (cards : Nat → Nat → List ParsedListingCard) (concelho : Option Concelho)
    (now : Nat) (seg : ScrapeSegment) (db : Db) (i0 : Nat)
    (h60 : tp i0 ≤ MAX_PAGES_LIMIT) :
    ∃ trace db',
      locLoop (fun k => mkPages (tp k) (lows k) (cards k)) none concelho now
          (i0 + 1) 0 seg db = some (trace, db') ∧
      trace.length ≤ i0 + 1 ∧
      ((∀ e ∈ trace, e.lowest_seen.isSome) →
        (trace.map (fun e => e.lowest_seen)).Nodup →
        trace.length ≤ ((trace.filterMap (fun e => e.lowest_seen)).dedup).length) := by
  obtain ⟨trace, db', heq, hlen⟩ :=
    locLoop_terminates (fun k => mkPages (tp k) (lows k) (cards k)) none concelho now
      (i0 + 1) 0 seg db
      ⟨i0, Nat.lt_succ_self i0, fun db0 => by
        simpa using
          scrapeSegment_no_next_of_small (tp i0) (lows i0) (cards i0) none concelho now db0 h60⟩
  refine ⟨trace, db', heq, hlen, ?_⟩
  intro hall hnodup
  have hrw : trace.filterMap (fun e => e.lowest_seen) =
      (trace.map (fun e => e.lowest_seen)).filterMap id := by
    rw [List.filterMap_map]
    rfl
  have hall' : ∀ o ∈ trace.map (fun e => e.lowest_seen), o.isSome := by
    intro o ho
    obtain ⟨e, he, rfl⟩ := List.mem_map.mp ho
    exact hall e he
  obtain ⟨hlenFM, hnodupFM⟩ :=
    filterMap_id_all_some (trace.map (fun e => e.lowest_seen)) hall' hnodup
  rw [hrw, List.dedup_eq_self.mpr hnodupFM, hlenFM, List.length_map]

/-- Witness for C2 (amended) at the spec scenario responses: 61 pages at
segment 0, 12 pages at segment 1, so the hypothesis holds at `i0 = 1`. -/
theorem c2_segmentation_terminates_witness :
    ((if (1 : Nat) = 0 then 61 else 12) ≤ MAX_PAGES_LIMIT) ∧
    (∃ trace db',
      locLoop
          (fun k => mkPages (if k = 0 then 61 else 12)
            (fun _ => if k = 0 then some 450000 else some 200000)
            (fun _ => []))
          none none 5 2 0 segTop emptyDb = some (trace, db') ∧
      trace.length ≤ 2 ∧
      ((∀ e ∈ trace, e.lowest_seen.isSome) →
        (trace.map (fun e => e.lowest_seen)).Nodup →
        trace.length ≤ ((trace.filterMap (fun e => e.lowest_seen)).dedup).length)) :=
  ⟨by decide,
    c2_segmentation_terminates (fun k => if k = 0 then 61 else 12)
      (fun k _ => if k = 0 then some 450000 else some 200000)
      (fun _ _ => []) none 5 segTop emptyDb 1 (by decide)⟩

/-! ## Claim C5: missing concelho versus the NOT NULL schema (code bug) -/

/-- C5 (code bug in the schema): when the Concelho lookup by location slug
fails, the create path builds the row with `concelho_id = none` exactly as
the claim says — but `models.py` declares `listings.concelho_id` with
`nullable=False`, so committing such a row raises `IntegrityError`: the
persistence error branch is reachable, contradicting the claim's second
half.  The scraper code and the spec both treat the column as nullable, so
the schema is the slip. -/
theorem c5_null_concelho_commit_fails
    (concelhos : List Concelho) (slug : String)
    (hmiss : findConcelhoBySlug concelhos slug = none)
    (card : ParsedListingCard) (now rowId : Nat) (db : Db)
    (hmem : createListing (findConcelhoBySlug concelhos slug) card now rowId ∈ db.listings) :
    (createListing (findConcelhoBySlug concelhos slug) card now rowId).concelho_id = none ∧
    listingRowSatisfiesNotNull
      (createListing (findConcelhoBySlug concelhos slug) card now rowId) = false ∧
    commitListings db =
      Except.error "IntegrityError: NOT NULL constraint failed: listings.concelho_id" := by
  rw [hmiss] at hmem ⊢
  have h1 : (createListing none card now rowId).concelho_id = none := rfl
  have h2 : listingRowSatisfiesNotNull (createListing none card now rowId) = false := by
    rw [listingRowSatisfiesNotNull, h1]
    rfl
  have hbad : ¬(db.listings.all listingRowSatisfiesNotNull = true) := by
    intro hall
    have hx := List.all_eq_true.mp hall _ hmem
    rw [h2] at hx
    exact Bool.false_ne_true hx
  refine ⟨h1, h2, ?_⟩
  unfold commitListings
  rw [if_neg hbad]

/-- Witness for C5's failing input: slug `nowhere` with an empty concelho
table and card B. -/
theorem c5_null_concelho_commit_fails_witness :
    findConcelhoBySlug [] ("nowhere") = none ∧
    (createListing (findConcelhoBySlug [] ("nowhere")) sampleCardB 3 1).concelho_id = none ∧
    commitListings c5Db =
      Except.error "IntegrityError: NOT NULL constraint failed: listings.concelho_id" := by
  have h := c5_null_concelho_commit_fails [] ("nowhere") rfl sampleCardB 3 1 c5Db
    (List.mem_singleton.mpr rfl)
  exact ⟨rfl, h.1, h.2.2⟩

/-! ## Claim C9: run-ledger lifecycle of a driver invocation -/

lemma accumWorks_spec :
    ∀ (works : List (Except String LocStats)) (p c u : Nat),
    accumWorks works (p, c, u) =
      ((p + ((okPrefix works).map (fun s => s.processed)).sum,
        c + ((okPrefix works).map (fun s => s.created)).sum,
        u + ((okPrefix works).map (fun s => s.updated)).sum),
       firstError works)
  | [], p, c, u => by simp [accumWorks, okPrefix, firstError]
  | Except.ok s :: rest, p, c, u => by
    have ih := accumWorks_spec rest (p + s.processed) (c + s.created) (u + s.updated)
    have hpre : okPrefix (Except.ok s :: rest) = s :: okPrefix rest := by
      simp [okPrefix, List.takeWhile_cons]
    rw [show accumWorks (Except.ok s :: rest) (p, c, u) =
        accumWorks rest (p + s.processed, c + s.created, u + s.updated) from rfl,
      ih, hpre]
    simp only [List.map_cons, List.sum_cons, firstError]
    refine congrArg (fun z => (z, firstError rest)) ?_
    refine congrArg₂ Prod.mk (by omega) (congrArg₂ Prod.mk (by omega) (by omega))
  | Except.error e :: rest, p, c, u => by
    have hpre : okPrefix (Except.error e :: rest) = [] := by
      simp [okPrefix, List.takeWhile_cons]
    rw [show accumWorks (Except.error e :: rest) (p, c, u) = ((p, c, u), some e) from rfl, hpre]
    simp [firstError]

/-- C9: a driver invocation commits exactly two ledger states: the entry
record with `status = "running"` and no end timestamp, and exactly one
terminal record carrying the end timestamp and the counters of the
successfully processed prefix; the terminal status is `success` iff no
combination raised, otherwise `failed` with the first exception's text
stored, and the function's outcome re-raises exactly that exception (the
source re-raises only after the failed record is committed). -/
theorem c9_run_ledger_lifecycle (works : List (Except String LocStats)) (t0 t1 : Nat) :
    ∃ final : ScrapeRunRecord,
      (runListingsScraper works t0 t1).1 =
        [{ run_type := "scrape", status := "running", started_at := t0 }, final] ∧
      final.run_type = "scrape" ∧
      final.started_at = t0 ∧
      final.ended_at = some t1 ∧
      final.listings_processed = ((okPrefix works).map (fun s => s.processed)).sum ∧
      final.listings_created = ((okPrefix works).map (fun s => s.created)).sum ∧
      final.listings_updated = ((okPrefix works).map (fun s => s.updated)).sum ∧
      (firstError works = none →
        final.status = "success" ∧ final.error_message = none ∧
        ∃ totals, (runListingsScraper works t0 t1).2 = Except.ok totals) ∧
      (∀ e, firstError works = some e →
        final.status = "failed" ∧ final.error_message = some e ∧
        (runListingsScraper works t0 t1).2 = Except.error e) := by
  unfold runListingsScraper
  rw [accumWorks_spec works 0 0 0]
  cases hfe : firstError works with
  | none =>
    refine ⟨_, rfl, rfl, rfl, rfl, by simp, by simp, by simp, ?_, ?_⟩
    · intro _
      exact ⟨rfl, rfl, _, rfl⟩
    · intro e he
      exact absurd he (by simp)
  | some e =>
    refine ⟨_, rfl, rfl, rfl, rfl, by simp, by simp, by simp, ?_, ?_⟩
    · intro hn
      exact absurd hn (by simp)
    · intro e' he'
      obtain rfl : e = e' := Option.some_inj.mp he'
      exact ⟨rfl, rfl, rfl⟩

/-- Witness for C9 at a concrete work list whose second combination raises. -/
theorem c9_run_ledger_lifecycle_witness :
    ∃ final : ScrapeRunRecord,
      (runListingsScraper [Except.ok sampleLocStats, Except.error ("boom"),
          Except.ok sampleLocStats] 10 20).1 =
        [{ run_type := "scrape", status := "running", started_at := 10 }, final] ∧
      final.run_type = "scrape" ∧
      final.started_at = 10 ∧
      final.ended_at = some 20 ∧
      final.listings_processed =
        ((okPrefix [Except.ok sampleLocStats, Except.error ("boom"),
          Except.ok sampleLocStats]).map (fun s => s.processed)).sum ∧
      final.listings_created =
        ((okPrefix [Except.ok sampleLocStats, Except.error ("boom"),
          Except.ok sampleLocStats]).map (fun s => s.created)).sum ∧
      final.listings_updated =
        ((okPrefix [Except.ok sampleLocStats, Except.error ("boom"),
          Except.ok sampleLocStats]).map (fun s => s.updated)).sum ∧
      (firstError [Except.ok sampleLocStats, Except.error ("boom"),
          Except.ok sampleLocStats] = none →
        final.status = "success" ∧ final.error_message = none ∧
        ∃ totals, (runListingsScraper [Except.ok sampleLocStats, Except.error ("boom"),
          Except.ok sampleLocStats] 10 20).2 = Except.ok totals) ∧
      (∀ e, firstError [Except.ok sampleLocStats, Except.error ("boom"),
          Except.ok sampleLocStats] = some e →
        final.status = "failed" ∧ final.error_message = some e ∧
        (runListingsScraper [Except.ok sampleLocStats, Except.error ("boom"),
          Except.ok sampleLocStats] 10 20).2 = Except.error e) :=
  c9_run_ledger_lifecycle
    [Except.ok sampleLocStats, Except.error ("boom"), Except.ok sampleLocStats] 10 20

/-! ## Claim C10: the pre-scraper counts every district as created -/

lemma concelhoLoop_stats (district : District) (now : Nat) :
    ∀ (links : List ParsedConcelhoLink) (geo : GeoDb) (x y : Nat),
    ∃ x' y', (concelhoLoop district now links geo (mkPreStats 1 0 x y)).2 =
      mkPreStats 1 0 x' y'
  | [], _geo, x, y => ⟨x, y, rfl⟩
  | link :: rest, geo, x, y => by
    cases hcr : (upsertConcelho geo district link now).2 with
    | true =>
      have hstep : concelhoLoop district now (link :: rest) geo (mkPreStats 1 0 x y) =
          concelhoLoop district now rest (upsertConcelho geo district link now).1
            (mkPreStats 1 0 (x + 1) y) := by
        simp only [concelhoLoop, hcr, if_true]
        rfl
      rw [hstep]
      exact concelhoLoop_stats district now rest (upsertConcelho geo district link now).1
        (x + 1) y
    | false =>
      have hstep : concelhoLoop district now (link :: rest) geo (mkPreStats 1 0 x y) =
          concelhoLoop district now rest (upsertConcelho geo district link now).1
            (mkPreStats 1 0 x (y + 1)) := by
        simp only [concelhoLoop, hcr, Bool.false_eq_true, if_false]
        rfl
      rw [hstep]
      exact concelhoLoop_stats district now rest (upsertConcelho geo district link now).1
        x (y + 1)

lemma processDistrict_stats (geo : GeoDb) (info : ParsedDistrictInfo)
    (fetched : List ParsedConcelhoLink) (now : Nat) :
    ∃ x y, (processDistrict geo info fetched now).2 = mkPreStats 1 0 x y := by
  have hpd : (processDistrict geo info fetched now).2 =
      (concelhoLoop (upsertDistrict geo info now).2 now
        (if info.concelhos.isEmpty then fetched else info.concelhos)
        (upsertDistrict geo info now).1 (mkPreStats 1 0 0 0)).2 := rfl
  rw [hpd]
  exact concelhoLoop_stats (upsertDistrict geo info now).2 now
    (if info.concelhos.isEmpty then fetched else info.concelhos)
    (upsertDistrict geo info now).1 0 0

lemma preScraperLoop_stats (now : Nat) :
    ∀ (ds : List (ParsedDistrictInfo × List ParsedConcelhoLink)) (geo : GeoDb)
      (n m X Y : Nat),
    ∃ X' Y', (preScraperLoop now ds geo (mkPreStats n m X Y)).2 =
      mkPreStats (n + ds.length) m X' Y'
  | [], _geo, n, m, X, Y => ⟨X, Y, by simp [preScraperLoop]⟩
  | (info, fetched) :: rest, geo, n, m, X, Y => by
    obtain ⟨x, y, hx⟩ := processDistrict_stats geo info fetched now
    have hstep : preScraperLoop now ((info, fetched) :: rest) geo (mkPreStats n m X Y) =
        preScraperLoop now rest (processDistrict geo info fetched now).1
          (mkPreStats (n + 1) m (X + x) (Y + y)) := by
      simp only [preScraperLoop]
      rw [show addStats (mkPreStats n m X Y) (processDistrict geo info fetched now).2 =
          mkPreStats (n + 1) m (X + x) (Y + y) from by rw [hx]; rfl]
    rw [hstep]
    obtain ⟨X', Y', hres⟩ :=
      preScraperLoop_stats now rest (processDistrict geo info fetched now).1
        (n + 1) m (X + x) (Y + y)
    refine ⟨X', Y', ?_⟩
    rw [hres]
    have harith : n + 1 + rest.length = n + (rest.length + 1) := by omega
    rw [harith]
    rfl

/-- C10: `_process_district` selects the statistics key with
`"districts_created" if stats else "districts_updated"`, conditioning on
the truthiness of the never-empty statistics dictionary, so every district
is counted under `districts_created` — whether or not it already existed —
and `districts_updated` is 0 in every pre-scraper run. -/
theorem c10_pre_scraper_always_counts_created
    (geo : GeoDb) (info : ParsedDistrictInfo) (fetched : List ParsedConcelhoLink)
    (now : Nat) (districts : List (ParsedDistrictInfo × List ParsedConcelhoLink)) :
    ((if !preStatsInit.isEmpty then "districts_created" else "districts_updated") =
      "districts_created") ∧
    getStat (processDistrict geo info fetched now).2 ("districts_created") = 1 ∧
    getStat (processDistrict geo info fetched now).2 ("districts_updated") = 0 ∧
    getStat (preScraperRun geo districts now).2 ("districts_created") = districts.length ∧
    getStat (preScraperRun geo districts now).2 ("districts_updated") = 0 := by
  obtain ⟨x, y, hpd⟩ := processDistrict_stats geo info fetched now
  obtain ⟨X, Y, hrun⟩ := preScraperLoop_stats now districts geo 0 0 0 0
  have hinit : preScraperRun geo districts now =
      preScraperLoop now districts geo (mkPreStats 0 0 0 0) := rfl
  refine ⟨rfl, ?_, ?_, ?_, ?_⟩
  · rw [hpd]; rfl
  · rw [hpd]; rfl
  · rw [hinit, hrun]
    show 0 + districts.length = districts.length
    omega
  · rw [hinit, hrun]
    rfl

/-- Witness for C10 at a concrete pre-existing district (an update in the
store, still counted as created). -/
theorem c10_pre_scraper_always_counts_created_witness :
    getStat
      (processDistrict
        { districts := [{ id := 1, name := "Lisboa", slug := "lisboa-distrito" }],
          concelhos := [], nextId := 2 }
        { name := "Lisboa", slug := "lisboa-distrito" } [] 4).2
      ("districts_created") = 1 ∧
    getStat
      (processDistrict
        { districts := [{ id := 1, name := "Lisboa", slug := "lisboa-distrito" }],
          concelhos := [], nextId := 2 }
        { name := "Lisboa", slug := "lisboa-distrito" } [] 4).2
      ("districts_updated") = 0 := by
  have h := c10_pre_scraper_always_counts_created
    { districts := [{ id := 1, name := "Lisboa", slug := "lisboa-distrito" }],
      concelhos := [], nextId := 2 }
    { name := "Lisboa", slug := "lisboa-distrito" } [] 4 []
  exact ⟨h.2.1, h.2.2.1⟩

/-! ## Lemmas for claim C7: monotone enrichment of detail parsing -/

lemma enrichMono_id : EnrichMono (fun l => l) :=
  ⟨fun _ _ h => h, fun _ _ h => h, fun _ _ h => h, fun _ _ h => h, fun _ _ h => h,
   fun _ _ h => h, fun _ _ h => h, fun _ _ h => h, fun _ _ h => h, fun _ h => h,
   fun _ h => h, fun _ h => h, fun _ h => h, fun _ h => h, fun _ h => h, fun _ h => h,
   fun _ h => h, fun _ h => h⟩

lemma enrichMono_comp {T S : Listing → Listing} (hT : EnrichMono T) (hS : EnrichMono S) :
    EnrichMono (fun l => S (T l)) := by
  obtain ⟨t1, t2, t3, t4, t5, t6, t7, t8, t9, t10, t11, t12, t13, t14, t15, t16, t17, t18⟩ := hT
  obtain ⟨s1, s2, s3, s4, s5, s6, s7, s8, s9, s10, s11, s12, s13, s14, s15, s16, s17, s18⟩ := hS
  exact ⟨fun l v h => s1 _ _ (t1 _ _ h), fun l v h => s2 _ _ (t2 _ _ h),
    fun l v h => s3 _ _ (t3 _ _ h), fun l v h => s4 _ _ (t4 _ _ h),
    fun l v h => s5 _ _ (t5 _ _ h), fun l v h => s6 _ _ (t6 _ _ h),
    fun l v h => s7 _ _ (t7 _ _ h), fun l v h => s8 _ _ (t8 _ _ h),
    fun l v h => s9 _ _ (t9 _ _ h), fun l h => s10 _ (t10 _ h),
    fun l h => s11 _ (t11 _ h), fun l h => s12 _ (t12 _ h), fun l h => s13 _ (t13 _ h),
    fun l h => s14 _ (t14 _ h), fun l h => s15 _ (t15 _ h), fun l h => s16 _ (t16 _ h),
    fun l h => s17 _ (t17 _ h), fun l h => s18 _ (t18 _ h)⟩

lemma enrichMono_foldl {α : Type} (step : Listing → α → Listing)
    (hstep : ∀ x, EnrichMono (fun l => step l x)) :
    ∀ xs : List α, EnrichMono (fun l => xs.foldl step l)
  | [] => enrichMono_id
  | x :: xs => by
    have h := enrichMono_comp (hstep x) (enrichMono_foldl step hstep xs)
    simpa only [List.foldl_cons] using h

lemma enrichMono_featBedrooms (fl : String) : EnrichMono (fun l => featBedrooms l fl) := by
  unfold EnrichMono featBedrooms
  refine ⟨?_, ?_, ?_, ?_, ?_, ?_, ?_, ?_, ?_, ?_, ?_, ?_, ?_, ?_, ?_, ?_, ?_, ?_⟩ <;>
    (intros; dsimp only; repeat' split) <;> (first | assumption | simp_all)

lemma enrichMono_featBathrooms (fl : String) : EnrichMono (fun l => featBathrooms l fl) := by
  unfold EnrichMono featBathrooms
  refine ⟨?_, ?_, ?_, ?_, ?_, ?_, ?_, ?_, ?_, ?_, ?_, ?_, ?_, ?_, ?_, ?_, ?_, ?_⟩ <;>
    (intros; dsimp only; repeat' split) <;> (first | assumption | simp_all)

lemma enrichMono_featArea (fl : String) : EnrichMono (fun l => featArea l fl) := by
  unfold EnrichMono featArea
  refine ⟨?_, ?_, ?_, ?_, ?_, ?_, ?_, ?_, ?_, ?_, ?_, ?_, ?_, ?_, ?_, ?_, ?_, ?_⟩ <;>
    (intros; dsimp only; repeat' split) <;> (first | assumption | simp_all)

lemma enrichMono_featFloor (feature fl : String) :
    EnrichMono (fun l => featFloor l feature fl) := by
  unfold EnrichMono featFloor
  refine ⟨?_, ?_, ?_, ?_, ?_, ?_, ?_, ?_, ?_, ?_, ?_, ?_, ?_, ?_, ?_, ?_, ?_, ?_⟩ <;>
    (intros; dsimp only; repeat' split) <;> (first | assumption | simp_all)

lemma enrichMono_featTypology (feature fl : String) :
    EnrichMono (fun l => featTypology l feature fl) := by
  unfold EnrichMono featTypology
  refine ⟨?_, ?_, ?_, ?_, ?_, ?_, ?_, ?_, ?_, ?_, ?_, ?_, ?_, ?_, ?_, ?_, ?_, ?_⟩ <;>
    (intros; dsimp only; repeat' split) <;> (first | assumption | simp_all)

lemma enrichMono_featGarage (fl : String) : EnrichMono (fun l => featGarage l fl) := by
  unfold EnrichMono featGarage
  refine ⟨?_, ?_, ?_, ?_, ?_, ?_, ?_, ?_, ?_, ?_, ?_, ?_, ?_, ?_, ?_, ?_, ?_, ?_⟩ <;>
    (intros; dsimp only; repeat' split) <;> (first | assumption | simp_all)

lemma enrichMono_featElevator (fl : String) : EnrichMono (fun l => featElevator l fl) := by
  unfold EnrichMono featElevator
  refine ⟨?_, ?_, ?_, ?_, ?_, ?_, ?_, ?_, ?_, ?_, ?_, ?_, ?_, ?_, ?_, ?_, ?_, ?_⟩ <;>
    (intros; dsimp only; repeat' split) <;> (first | assumption | simp_all)

lemma enrichMono_featCondition (feature fl : String) :
    EnrichMono (fun l => featCondition l feature fl) := by
  unfold EnrichMono featCondition
  refine ⟨?_, ?_, ?_, ?_, ?_, ?_, ?_, ?_, ?_, ?_, ?_, ?_, ?_, ?_, ?_, ?_, ?_, ?_⟩ <;>
    (intros; dsimp only; repeat' split) <;> (first | assumption | simp_all)

lemma enrichMono_equipAC (il : String) : EnrichMono (fun l => equipAC l il) := by
  unfold EnrichMono equipAC
  refine ⟨?_, ?_, ?_, ?_, ?_, ?_, ?_, ?_, ?_, ?_, ?_, ?_, ?_, ?_, ?_, ?_, ?_, ?_⟩ <;>
    (intros; dsimp only; repeat' split) <;> (first | assumption | simp_all)

lemma enrichMono_equipPool (il : String) : EnrichMono (fun l => equipPool l il) := by
  unfold EnrichMono equipPool
  refine ⟨?_, ?_, ?_, ?_, ?_, ?_, ?_, ?_, ?_, ?_, ?_, ?_, ?_, ?_, ?_, ?_, ?_, ?_⟩ <;>
    (intros; dsimp only; repeat' split) <;> (first | assumption | simp_all)

lemma enrichMono_equipGarden (il : String) : EnrichMono (fun l => equipGarden l il) := by
  unfold EnrichMono equipGarden
  refine ⟨?_, ?_, ?_, ?_, ?_, ?_, ?_, ?_, ?_, ?_, ?_, ?_, ?_, ?_, ?_, ?_, ?_, ?_⟩ <;>
    (intros; dsimp only; repeat' split) <;> (first | assumption | simp_all)

lemma enrichMono_equipTerrace (il : String) : EnrichMono (fun l => equipTerrace l il) := by
  unfold EnrichMono equipTerrace
  refine ⟨?_, ?_, ?_, ?_, ?_, ?_, ?_, ?_, ?_, ?_, ?_, ?_, ?_, ?_, ?_, ?_, ?_, ?_⟩ <;>
    (intros; dsimp only; repeat' split) <;> (first | assumption | simp_all)

lemma enrichMono_equipBalcony (il : String) : EnrichMono (fun l => equipBalcony l il) := by
  unfold EnrichMono equipBalcony
  refine ⟨?_, ?_, ?_, ?_, ?_, ?_, ?_, ?_, ?_, ?_, ?_, ?_, ?_, ?_, ?_, ?_, ?_, ?_⟩ <;>
    (intros; dsimp only; repeat' split) <;> (first | assumption | simp_all)

lemma enrichMono_equipHeating (il : String) : EnrichMono (fun l => equipHeating l il) := by
  unfold EnrichMono equipHeating
  refine ⟨?_, ?_, ?_, ?_, ?_, ?_, ?_, ?_, ?_, ?_, ?_, ?_, ?_, ?_, ?_, ?_, ?_, ?_⟩ <;>
    (intros; dsimp only; repeat' split) <;> (first | assumption | simp_all)

lemma enrichMono_charYear (kl value : String) : EnrichMono (fun l => charYear l kl value) := by
  unfold EnrichMono charYear
  refine ⟨?_, ?_, ?_, ?_, ?_, ?_, ?_, ?_, ?_, ?_, ?_, ?_, ?_, ?_, ?_, ?_, ?_, ?_⟩ <;>
    (intros; dsimp only; repeat' split) <;> (first | assumption | simp_all)

lemma enrichMono_charCondition (kl value : String) :
    EnrichMono (fun l => charCondition l kl value) := by
  unfold EnrichMono charCondition
  refine ⟨?_, ?_, ?_, ?_, ?_, ?_, ?_, ?_, ?_, ?_, ?_, ?_, ?_, ?_, ?_, ?_, ?_, ?_⟩ <;>
    (intros; dsimp only; repeat' split) <;> (first | assumption | simp_all)

lemma enrichMono_charElevator (kl vl : String) :
    EnrichMono (fun l => charElevator l kl vl) := by
  unfold EnrichMono charElevator
  refine ⟨?_, ?_, ?_, ?_, ?_, ?_, ?_, ?_, ?_, ?_, ?_, ?_, ?_, ?_, ?_, ?_, ?_, ?_⟩ <;>
    (intros; dsimp only; repeat' split) <;> (first | assumption | simp_all)

lemma enrichMono_charGarage (kl vl : String) : EnrichMono (fun l => charGarage l kl vl) := by
  unfold EnrichMono charGarage
  refine ⟨?_, ?_, ?_, ?_, ?_, ?_, ?_, ?_, ?_, ?_, ?_, ?_, ?_, ?_, ?_, ?_, ?_, ?_⟩ <;>
    (intros; dsimp only; repeat' split) <;> (first | assumption | simp_all)

lemma enrichMono_charPool (kl vl : String) : EnrichMono (fun l => charPool l kl vl) := by
  unfold EnrichMono charPool
  refine ⟨?_, ?_, ?_, ?_, ?_, ?_, ?_, ?_, ?_, ?_, ?_, ?_, ?_, ?_, ?_, ?_, ?_, ?_⟩ <;>
    (intros; dsimp only; repeat' split) <;> (first | assumption | simp_all)

lemma enrichMono_charGarden (kl vl : String) : EnrichMono (fun l => charGarden l kl vl) := by
  unfold EnrichMono charGarden
  refine ⟨?_, ?_, ?_, ?_, ?_, ?_, ?_, ?_, ?_, ?_, ?_, ?_, ?_, ?_, ?_, ?_, ?_, ?_⟩ <;>
    (intros; dsimp only; repeat' split) <;> (first | assumption | simp_all)

lemma enrichMono_charTerrace (kl vl : String) :
    EnrichMono (fun l => charTerrace l kl vl) := by
  unfold EnrichMono charTerrace
  refine ⟨?_, ?_, ?_, ?_, ?_, ?_, ?_, ?_, ?_, ?_, ?_, ?_, ?_, ?_, ?_, ?_, ?_, ?_⟩ <;>
    (intros; dsimp only; repeat' split) <;> (first | assumption | simp_all)

lemma enrichMono_charBalcony (kl vl : String) :
    EnrichMono (fun l => charBalcony l kl vl) := by
  unfold EnrichMono charBalcony
  refine ⟨?_, ?_, ?_, ?_, ?_, ?_, ?_, ?_, ?_, ?_, ?_, ?_, ?_, ?_, ?_, ?_, ?_, ?_⟩ <;>
    (intros; dsimp only; repeat' split) <;> (first | assumption | simp_all)

lemma enrichMono_charAC (kl vl : String) : EnrichMono (fun l => charAC l kl vl) := by
  unfold EnrichMono charAC
  refine ⟨?_, ?_, ?_, ?_, ?_, ?_, ?_, ?_, ?_, ?_, ?_, ?_, ?_, ?_, ?_, ?_, ?_, ?_⟩ <;>
    (intros; dsimp only; repeat' split) <;> (first | assumption | simp_all)

lemma enrichMono_charHeating (kl vl : String) :
    EnrichMono (fun l => charHeating l kl vl) := by
  unfold EnrichMono charHeating
  refine ⟨?_, ?_, ?_, ?_, ?_, ?_, ?_, ?_, ?_, ?_, ?_, ?_, ?_, ?_, ?_, ?_, ?_, ?_⟩ <;>
    (intros; dsimp only; repeat' split) <;> (first | assumption | simp_all)

lemma enrichMono_charEnergy (kl value : String) :
    EnrichMono (fun l => charEnergy l kl value) := by
  unfold EnrichMono charEnergy
  refine ⟨?_, ?_, ?_, ?_, ?_, ?_, ?_, ?_, ?_, ?_, ?_, ?_, ?_, ?_, ?_, ?_, ?_, ?_⟩ <;>
    (intros; dsimp only; repeat' split) <;> (first | assumption | simp_all)

lemma enrichMono_charPrice (kl value : String) :
    EnrichMono (fun l => charPrice l kl value) := by
  unfold EnrichMono charPrice
  refine ⟨?_, ?_, ?_, ?_, ?_, ?_, ?_, ?_, ?_, ?_, ?_, ?_, ?_, ?_, ?_, ?_, ?_, ?_⟩ <;>
    (intros; dsimp only; repeat' split) <;> (first | assumption | simp_all)

lemma enrichMono_featStep (feature : String) : EnrichMono (fun l => featStep l feature) := by
  unfold featStep
  exact enrichMono_comp (enrichMono_featBedrooms _)
    (enrichMono_comp (enrichMono_featBathrooms _)
      (enrichMono_comp (enrichMono_featArea _)
        (enrichMono_comp (enrichMono_featFloor _ _)
          (enrichMono_comp (enrichMono_featTypology _ _)
            (enrichMono_comp (enrichMono_featGarage _)
              (enrichMono_comp (enrichMono_featElevator _)
                (enrichMono_featCondition _ _)))))))

lemma enrichMono_equipStep (item : String) : EnrichMono (fun l => equipStep l item) := by
  unfold equipStep
  exact enrichMono_comp (enrichMono_equipAC _)
    (enrichMono_comp (enrichMono_equipPool _)
      (enrichMono_comp (enrichMono_equipGarden _)
        (enrichMono_comp (enrichMono_equipTerrace _)
          (enrichMono_comp (enrichMono_equipBalcony _) (enrichMono_equipHeating _)))))

lemma enrichMono_charStep (kv : String × String) :
    EnrichMono (fun l => charStep l kv) := by
  unfold charStep
  exact enrichMono_comp (enrichMono_charYear _ _)
    (enrichMono_comp (enrichMono_charCondition _ _)
      (enrichMono_comp (enrichMono_charElevator _ _)
        (enrichMono_comp (enrichMono_charGarage _ _)
          (enrichMono_comp (enrichMono_charPool _ _)
            (enrichMono_comp (enrichMono_charGarden _ _)
              (enrichMono_comp (enrichMono_charTerrace _ _)
                (enrichMono_comp (enrichMono_charBalcony _ _)
                  (enrichMono_comp (enrichMono_charAC _ _)
                    (enrichMono_comp (enrichMono_charHeating _ _)
                      (enrichMono_comp (enrichMono_charEnergy _ _)
                        (enrichMono_charPrice _ _)))))))))))

lemma enrichMono_parseFeatures (features_raw : List String) :
    EnrichMono (fun l => parseFeatures l features_raw) := by
  unfold parseFeatures
  exact enrichMono_foldl featStep enrichMono_featStep features_raw

lemma enrichMono_parseEquipment (equipment : List String) :
    EnrichMono (fun l => parseEquipment l equipment) := by
  unfold parseEquipment
  exact enrichMono_foldl equipStep enrichMono_equipStep equipment

lemma enrichMono_parseCharacteristics (chars : List (String × String)) :
    EnrichMono (fun l => parseCharacteristics l chars) := by
  unfold parseCharacteristics
  exact enrichMono_foldl charStep enrichMono_charStep chars

/-! ## Claim C7: detail-parsing enrichment semantics (corrected) -/

/-- Counterexample to C7 as stated: boolean amenity flags in the
characteristics parsing are assigned on *every* keyword match, so a later
match overwrites an earlier one (last match wins) and can discard a
previously matched `true` within the same enrichment pass: equipment item
`Piscina` sets `has_pool = true`, and the characteristic
`("Piscina interior", "não")` then resets it to `false`. -/
theorem c7_first_match_wins_counterexample :
    (parseEquipment sampleListing [("Piscina")]).has_pool = some true ∧
    (parseCharacteristics (parseEquipment sampleListing [("Piscina")])
        [(("Piscina interior"), ("não"))]).has_pool = some false ∧
    (parseCharacteristics sampleListing
        [(("Piscina"), ("sim")), (("Piscina interior"), ("não"))]).has_pool = some false :=
  ⟨rfl, rfl, rfl⟩

/-- C7 (amended): across one enrichment pass (features, then equipment,
then characteristics) no field already holding a non-null value is ever
overwritten with null; the null-guarded fields (bedrooms, bathrooms, both
areas, floor, typology, condition, energy class, price per m²) keep their
exact value once set — first match wins for them — while year built and the
boolean amenity flags are only guaranteed to stay non-null: the
characteristics blocks reassign them on every match (last match wins), see
the counterexample. -/
theorem c7_enrichment_monotone
    (feats equip : List String) (chars : List (String × String)) :
    EnrichMono (fun l =>
      parseCharacteristics (parseEquipment (parseFeatures l feats) equip) chars) :=
  enrichMono_comp (enrichMono_parseFeatures feats)
    (enrichMono_comp (enrichMono_parseEquipment equip)
      (enrichMono_parseCharacteristics chars))

/-- Witness for C7 (amended) at a concrete pass: a listing with
`bedrooms = 4` and `has_pool = true` keeps `bedrooms = 4` and a non-null
`has_pool` through a full enrichment pass. -/
theorem c7_enrichment_monotone_witness :
    (parseCharacteristics (parseEquipment (parseFeatures
        { sampleListing with bedrooms := some 4, has_pool := some true } [("T3")])
        [("Piscina")]) [(("Estado"), ("Usado"))]).bedrooms = some 4 ∧
    ((parseCharacteristics (parseEquipment (parseFeatures
        { sampleListing with bedrooms := some 4, has_pool := some true } [("T3")])
        [("Piscina")]) [(("Estado"), ("Usado"))]).has_pool).isSome := by
  have h := c7_enrichment_monotone [("T3")] [("Piscina")] [(("Estado"), ("Usado"))]
  exact ⟨h.1 _ 4 rfl,
    h.2.2.2.2.2.2.2.2.2.2.2.2.1
      { sampleListing with bedrooms := some 4, has_pool := some true } (by rfl)⟩

/-! ## Lemmas for claim C8: order-independence of the concurrent fetch -/

lemma sortByPage_perm_batch
    (f : Nat → Option (List ParsedListingCard × SearchMetadata)) (s n : Nat)
    (rs : List FetchResult)
    (hperm : rs.Perm ((List.range' s n).map
      (fun p => ({ page_num := p, result := f p } : FetchResult)))) :
    sortByPage rs =
      (List.range' s n).map (fun p => ({ page_num := p, result := f p } : FetchResult)) := by
  have hperm2 : (sortByPage rs).Perm
      ((List.range' s n).map (fun p => ({ page_num := p, result := f p } : FetchResult))) :=
    (List.mergeSort_perm rs _).trans hperm
  have hsorted : List.Pairwise (fun a b : FetchResult => a.page_num ≤ b.page_num)
      (sortByPage rs) := by
    have h := @List.sorted_mergeSort FetchResult
      (fun a b : FetchResult => decide (a.page_num ≤ b.page_num))
      (fun a b c hab hbc => by
        simp only [decide_eq_true_eq] at hab hbc ⊢
        omega)
      (fun a b => by
        rcases Nat.le_total a.page_num b.page_num with h | h <;> simp [h])
      rs
    exact h.imp (fun hab => of_decide_eq_true hab)
  have hkeys_sorted :
      List.Sorted (· ≤ ·) ((sortByPage rs).map (fun r => r.page_num)) :=
    List.pairwise_map.mpr hsorted
  have hcanonkeys :
      ((List.range' s n).map (fun p => ({ page_num := p, result := f p } : FetchResult))).map
        (fun r => r.page_num) = List.range' s n := by
    rw [List.map_map]
    exact List.map_id _
  have hkeys_perm : ((sortByPage rs).map (fun r => r.page_num)).Perm (List.range' s n) := by
    have := hperm2.map (fun r : FetchResult => r.page_num)
    rwa [hcanonkeys] at this
  have hrange_sorted : List.Sorted (· ≤ ·) (List.range' s n) :=
    (List.pairwise_lt_range' s n).imp le_of_lt
  have hkeys_eq : (sortByPage rs).map (fun r => r.page_num) = List.range' s n :=
    List.eq_of_perm_of_sorted hkeys_perm hkeys_sorted hrange_sorted
  have helem : ∀ x ∈ sortByPage rs,
      ({ page_num := x.page_num, result := f x.page_num } : FetchResult) = x := by
    intro x hx
    have hx2 := hperm2.mem_iff.mp hx
    obtain ⟨p, -, rfl⟩ := List.mem_map.mp hx2
    rfl
  calc sortByPage rs
      = (sortByPage rs).map (fun x =>
          ({ page_num := x.page_num, result := f x.page_num } : FetchResult)) :=
        ((List.map_congr_left helem).trans (List.map_id _)).symm
    _ = ((sortByPage rs).map (fun r => r.page_num)).map
          (fun p => ({ page_num := p, result := f p } : FetchResult)) := by
        rw [List.map_map]
        rfl
    _ = (List.range' s n).map (fun p => ({ page_num := p, result := f p } : FetchResult)) := by
        rw [hkeys_eq]

lemma crawlPages_append (f : Nat → Option (List ParsedListingCard × SearchMetadata))
    (concelho : Option Concelho) (now : Nat) :
    ∀ (A B : List Nat) (db : Db),
    (crawlPages f concelho now (A ++ B) db).db =
      (crawlPages f concelho now B (crawlPages f concelho now A db).db).db ∧
    (crawlPages f concelho now (A ++ B) db).processed =
      (crawlPages f concelho now A db).processed +
      (crawlPages f concelho now B (crawlPages f concelho now A db).db).processed ∧
    (crawlPages f concelho now (A ++ B) db).created =
      (crawlPages f concelho now A db).created +
      (crawlPages f concelho now B (crawlPages f concelho now A db).db).created ∧
    (crawlPages f concelho now (A ++ B) db).updated =
      (crawlPages f concelho now A db).updated +
      (crawlPages f concelho now B (crawlPages f concelho now A db).db).updated ∧
    (crawlPages f concelho now (A ++ B) db).pages =
      (crawlPages f concelho now A db).pages +
      (crawlPages f concelho now B (crawlPages f concelho now A db).db).pages
  | [], B, db => by simp [crawlPages]
  | p :: A, B, db => by
    simp only [List.cons_append, crawlPages]
    cases hf : f p with
    | none => exact crawlPages_append f concelho now A B db
    | some pr =>
      obtain ⟨ih1, ih2, ih3, ih4, ih5⟩ :=
        crawlPages_append f concelho now A B (processCards db concelho pr.1 now).1
      refine ⟨ih1, ?_, ?_, ?_, ?_⟩ <;>
        simp only [List.append_eq] <;> simp only [ih2, ih3, ih4, ih5] <;> omega

lemma processResultsSorted_canonical
    (f : Nat → Option (List ParsedListingCard × SearchMetadata))
    (concelho : Option Concelho) (now : Nat) :
    ∀ (ps : List Nat) (st : ASt), (∀ p ∈ ps, (f p).isSome) →
    (processResultsSorted concelho now
        (ps.map (fun p => ({ page_num := p, result := f p } : FetchResult))) st).db =
      (crawlPages f concelho now ps st.db).db ∧
    (processResultsSorted concelho now
        (ps.map (fun p => ({ page_num := p, result := f p } : FetchResult))) st).stats.processed =
      st.stats.processed + (crawlPages f concelho now ps st.db).processed ∧
    (processResultsSorted concelho now
        (ps.map (fun p => ({ page_num := p, result := f p } : FetchResult))) st).stats.created =
      st.stats.created + (crawlPages f concelho now ps st.db).created ∧
    (processResultsSorted concelho now
        (ps.map (fun p => ({ page_num := p, result := f p } : FetchResult))) st).stats.updated =
      st.stats.updated + (crawlPages f concelho now ps st.db).updated ∧
    (processResultsSorted concelho now
        (ps.map (fun p => ({ page_num := p, result := f p } : FetchResult))) st).stats.pages =
      st.stats.pages + (crawlPages f concelho now ps st.db).pages ∧
    (processResultsSorted concelho now
        (ps.map (fun p => ({ page_num := p, result := f p } : FetchResult))) st).stats.next_max_price =
      st.stats.next_max_price ∧
    (processResultsSorted concelho now
        (ps.map (fun p => ({ page_num := p, result := f p } : FetchResult))) st).order =
      st.order ++ ps
  | [], st, _hsome => by simp [processResultsSorted, crawlPages]
  | p :: ps, st, hsome => by
    obtain ⟨pr, hp⟩ := Option.isSome_iff_exists.mp (hsome p (List.mem_cons_self p ps))
    simp only [List.map_cons, processResultsSorted, crawlPages, hp]
    obtain ⟨ih1, ih2, ih3, ih4, ih5, ih6, ih7⟩ :=
      processResultsSorted_canonical f concelho now ps
        { db := (processCards st.db concelho pr.1 now).1,
          stats := { st.stats with
            processed := st.stats.processed + pr.1.length,
            created := st.stats.created + (processCards st.db concelho pr.1 now).2.1,
            updated := st.stats.updated + (processCards st.db concelho pr.1 now).2.2,
            pages := st.stats.pages + 1 },
          lowest := updateLowestAsync st.lowest pr.2.lowest_price_on_page,
          order := st.order ++ [p] }
        (fun q hq => hsome q (List.mem_cons_of_mem p hq))
    refine ⟨ih1, ?_, ?_, ?_, ?_, ih6, ?_⟩
    · rw [ih2]; dsimp only; omega
    · rw [ih3]; dsimp only; omega
    · rw [ih4]; dsimp only; omega
    · rw [ih5]; dsimp only; omega
    · rw [ih7]; simp

lemma range'_join (s m n : Nat) :
    List.range' s m ++ List.range' (s + m) n = List.range' s (m + n) := by
  have h := List.range'_append s m n 1
  simp only [one_mul] at h
  rw [Nat.add_comm n m] at h
  exact h

lemma asyncBatchLoop_components
    (f : Nat → Option (List ParsedListingCard × SearchMetadata))
    (concelho : Option Concelho) (now : Nat)
    (perm : Nat → List FetchResult → List FetchResult) (bs total : Nat)
    (hbs : 1 ≤ bs) (hperm : ∀ b rs, (perm b rs).Perm rs)
    (hsome : ∀ p, (f p).isSome) :
    ∀ (fuel s : Nat) (st : ASt), 2 ≤ s → total + 1 ≤ s + fuel →
    (asyncBatchLoop f concelho now perm bs total fuel s st).db =
      (crawlPages f concelho now (List.range' s (total + 1 - s)) st.db).db ∧
    (asyncBatchLoop f concelho now perm bs total fuel s st).stats.processed =
      st.stats.processed +
        (crawlPages f concelho now (List.range' s (total + 1 - s)) st.db).processed ∧
    (asyncBatchLoop f concelho now perm bs total fuel s st).stats.created =
      st.stats.created +
        (crawlPages f concelho now (List.range' s (total + 1 - s)) st.db).created ∧
    (asyncBatchLoop f concelho now perm bs total fuel s st).stats.updated =
      st.stats.updated +
        (crawlPages f concelho now (List.range' s (total + 1 - s)) st.db).updated ∧
    (asyncBatchLoop f concelho now perm bs total fuel s st).stats.pages =
      st.stats.pages +
        (crawlPages f concelho now (List.range' s (total + 1 - s)) st.db).pages ∧
    (asyncBatchLoop f concelho now perm bs total fuel s st).stats.next_max_price =
      st.stats.next_max_price ∧
    (asyncBatchLoop f concelho now perm bs total fuel s st).order =
      st.order ++ List.range' s (total + 1 - s)
  | 0, s, st, _hs, hle => by
    have hz : total + 1 - s = 0 := by omega
    rw [hz]
    simp [asyncBatchLoop, crawlPages]
  | fuel + 1, s, st, hs, hle => by
    by_cases hcond : s ≤ total
    · have hsort : sortByPage (perm s (fetchPagesBatch f s (min (s + bs - 1) total))) =
          fetchPagesBatch f s (min (s + bs - 1) total) :=
        sortByPage_perm_batch f s (min (s + bs - 1) total + 1 - s) _
          (hperm s (fetchPagesBatch f s (min (s + bs - 1) total)))
      have hstep : asyncBatchLoop f concelho now perm bs total (fuel + 1) s st =
          asyncBatchLoop f concelho now perm bs total fuel (s + bs)
            (processResultsSorted concelho now
              (fetchPagesBatch f s (min (s + bs - 1) total)) st) := by
        simp only [asyncBatchLoop, if_pos hcond, hsort]
      have hm : min (s + bs - 1) total + 1 - s = min bs (total + 1 - s) := by omega
      obtain ⟨p1, p2, p3, p4, p5, p6, p7⟩ :=
        processResultsSorted_canonical f concelho now
          (List.range' s (min bs (total + 1 - s))) st (fun p _ => hsome p)
      have hbatch : fetchPagesBatch f s (min (s + bs - 1) total) =
          (List.range' s (min bs (total + 1 - s))).map
            (fun p => ({ page_num := p, result := f p } : FetchResult)) := by
        unfold fetchPagesBatch
        rw [hm]
      obtain ⟨ih1, ih2, ih3, ih4, ih5, ih6, ih7⟩ :=
        asyncBatchLoop_components f concelho now perm bs total hbs hperm hsome fuel (s + bs)
          (processResultsSorted concelho now
            (fetchPagesBatch f s (min (s + bs - 1) total)) st)
          (by omega) (by omega)
      have hranges : List.range' s (min bs (total + 1 - s)) ++
          List.range' (s + bs) (total + 1 - (s + bs)) = List.range' s (total + 1 - s) := by
        rcases le_or_lt (s + bs) (total + 1) with hc | hc
        · have hmin : min bs (total + 1 - s) = bs := by omega
          rw [hmin]
          have := range'_join s bs (total + 1 - (s + bs))
          rw [show bs + (total + 1 - (s + bs)) = total + 1 - s from by omega] at this
          exact this
        · have hz : total + 1 - (s + bs) = 0 := by omega
          have hmin : min bs (total + 1 - s) = total + 1 - s := by omega
          rw [hz, hmin, List.range'_zero, List.append_nil]
      obtain ⟨a1, a2, a3, a4, a5⟩ :=
        crawlPages_append f concelho now (List.range' s (min bs (total + 1 - s)))
          (List.range' (s + bs) (total + 1 - (s + bs))) st.db
      rw [hranges] at a1 a2 a3 a4 a5
      rw [hstep]
      rw [hbatch] at ih1 ih2 ih3 ih4 ih5 ih6 ih7 ⊢
      refine ⟨?_, ?_, ?_, ?_, ?_, ?_, ?_⟩
      · rw [ih1, p1, a1]
      · rw [ih2, p2, a2, p1]; omega
      · rw [ih3, p3, a3, p1]; omega
      · rw [ih4, p4, a4, p1]; omega
      · rw [ih5, p5, a5, p1]; omega
      · rw [ih6, p6]
      · rw [ih7, p7, List.append_assoc, hranges]
    · have hz : total + 1 - s = 0 := by omega
      rw [hz]
      simp [asyncBatchLoop, hcond, crawlPages]

lemma segLoop_crawl (tp : Nat) (lows : Nat → Option Int)
    (cards : Nat → List ParsedListingCard) (concelho : Option Concelho) (now : Nat)
    (maxPages : Nat) (hmax : maxPages ≤ MAX_PAGES_LIMIT) :
    ∀ (fuel page : Nat) (lo : Option Int) (stats : SegmentStats)
      (lowsAcc : List (Option Int)) (db : Db),
    1 ≤ page → page + fuel = maxPages + 1 →
    (segLoop (mkPages tp lows cards) concelho now fuel page lo stats lowsAcc db).1.processed =
      stats.processed + (crawlPages (mkPages tp lows cards) concelho now
        (List.range' page (min (max page tp) maxPages + 1 - page)) db).processed ∧
    (segLoop (mkPages tp lows cards) concelho now fuel page lo stats lowsAcc db).1.created =
      stats.created + (crawlPages (mkPages tp lows cards) concelho now
        (List.range' page (min (max page tp) maxPages + 1 - page)) db).created ∧
    (segLoop (mkPages tp lows cards) concelho now fuel page lo stats lowsAcc db).1.updated =
      stats.updated + (crawlPages (mkPages tp lows cards) concelho now
        (List.range' page (min (max page tp) maxPages + 1 - page)) db).updated ∧
    (segLoop (mkPages tp lows cards) concelho now fuel page lo stats lowsAcc db).1.pages =
      stats.pages + (crawlPages (mkPages tp lows cards) concelho now
        (List.range' page (min (max page tp) maxPages + 1 - page)) db).pages ∧
    (segLoop (mkPages tp lows cards) concelho now fuel page lo stats lowsAcc db).2.2.2 =
      (crawlPages (mkPages tp lows cards) concelho now
        (List.range' page (min (max page tp) maxPages + 1 - page)) db).db
  | 0, page, lo, stats, lowsAcc, db, _hpage, hfuel => by
    have hz : min (max page tp) maxPages + 1 - page = 0 := by omega
    rw [hz]
    simp [segLoop, crawlPages]
  | fuel + 1, page, lo, stats, lowsAcc, db, hpage, hfuel => by
    have hple : page ≤ maxPages := by omega
    by_cases hlt : page < tp
    · by_cases hsat : MAX_PAGES_LIMIT ≤ page
      · have hE : min (max page tp) maxPages + 1 - page = 1 := by omega
        rw [hE]
        have hstep : segLoop (mkPages tp lows cards) concelho now (fuel + 1) page lo stats
            lowsAcc db =
            (match updateLowest lo (lows page) with
             | some lp =>
               ({ stats with
                  processed := stats.processed + (cards page).length,
                  created := stats.created + (processCards db concelho (cards page) now).2.1,
                  updated := stats.updated + (processCards db concelho (cards page) now).2.2,
                  pages := stats.pages + 1, next_max_price := some lp },
                 updateLowest lo (lows page), lowsAcc ++ [lows page],
                 (processCards db concelho (cards page) now).1)
             | none =>
               ({ stats with
                  processed := stats.processed + (cards page).length,
                  created := stats.created + (processCards db concelho (cards page) now).2.1,
                  updated := stats.updated + (processCards db concelho (cards page) now).2.2,
                  pages := stats.pages + 1 },
                 updateLowest lo (lows page), lowsAcc ++ [lows page],
                 (processCards db concelho (cards page) now).1)) := by
          simp only [segLoop, mkPages, decide_eq_true hlt, Bool.not_true, Bool.false_eq_true,
            if_false, if_pos hsat]
        have hcrawl : crawlPages (mkPages tp lows cards) concelho now
            (List.range' page 1) db =
            { db := (processCards db concelho (cards page) now).1,
              processed := (cards page).length + 0,
              created := (processCards db concelho (cards page) now).2.1 + 0,
              updated := (processCards db concelho (cards page) now).2.2 + 0,
              pages := 1 + 0 } := by
          simp [crawlPages, mkPages, List.range'_one]
        rw [hstep, hcrawl]
        cases updateLowest lo (lows page) <;>
          refine ⟨by dsimp only <;> omega, by dsimp only <;> omega, by dsimp only <;> omega,
            by dsimp only <;> omega, rfl⟩
      · have hEeq : min (max page tp) maxPages = min (max (page + 1) tp) maxPages := by
          omega
        have hcount : min (max page tp) maxPages + 1 - page =
            (min (max (page + 1) tp) maxPages + 1 - (page + 1)) + 1 := by omega
        have hstep : segLoop (mkPages tp lows cards) concelho now (fuel + 1) page lo stats
            lowsAcc db =
            segLoop (mkPages tp lows cards) concelho now fuel (page + 1)
              (updateLowest lo (lows page))
              { stats with
                processed := stats.processed + (cards page).length,
                created := stats.created + (processCards db concelho (cards page) now).2.1,
                updated := stats.updated + (processCards db concelho (cards page) now).2.2,
                pages := stats.pages + 1 }
              (lowsAcc ++ [lows page]) (processCards db concelho (cards page) now).1 := by
          simp only [segLoop, mkPages, decide_eq_true hlt, Bool.not_true, Bool.false_eq_true,
            if_false, if_neg hsat]
        obtain ⟨ih1, ih2, ih3, ih4, ih5⟩ :=
          segLoop_crawl tp lows cards concelho now maxPages hmax fuel (page + 1)
            (updateLowest lo (lows page))
            { stats with
              processed := stats.processed + (cards page).length,
              created := stats.created + (processCards db concelho (cards page) now).2.1,
              updated := stats.updated + (processCards db concelho (cards page) now).2.2,
              pages := stats.pages + 1 }
            (lowsAcc ++ [lows page]) (processCards db concelho (cards page) now).1
            (by omega) (by omega)
        have hrange : List.range' page (min (max page tp) maxPages + 1 - page) =
            page :: List.range' (page + 1) (min (max (page + 1) tp) maxPages + 1 - (page + 1)) := by
          rw [hcount]
          exact List.range'_succ page _ 1
        have hcrawl : crawlPages (mkPages tp lows cards) concelho now
            (page :: List.range' (page + 1)
              (min (max (page + 1) tp) maxPages + 1 - (page + 1))) db =
            { crawlPages (mkPages tp lows cards) concelho now
                (List.range' (page + 1) (min (max (page + 1) tp) maxPages + 1 - (page + 1)))
                (processCards db concelho (cards page) now).1 with
              processed := (cards page).length +
                (crawlPages (mkPages tp lows cards) concelho now
                  (List.range' (page + 1) (min (max (page + 1) tp) maxPages + 1 - (page + 1)))
                  (processCards db concelho (cards page) now).1).processed,
              created := (processCards db concelho (cards page) now).2.1 +
                (crawlPages (mkPages tp lows cards) concelho now
                  (List.range' (page + 1) (min (max (page + 1) tp) maxPages + 1 - (page + 1)))
                  (processCards db concelho (cards page) now).1).created,
              updated := (processCards db concelho (cards page) now).2.2 +
                (crawlPages (mkPages tp lows cards) concelho now
                  (List.range' (page + 1) (min (max (page + 1) tp) maxPages + 1 - (page + 1)))
                  (processCards db concelho (cards page) now).1).updated,
              pages := 1 +
                (crawlPages (mkPages tp lows cards) concelho now
                  (List.range' (page + 1) (min (max (page + 1) tp) maxPages + 1 - (page + 1)))
                  (processCards db concelho (cards page) now).1).pages } := by
          conv_lhs => rw [crawlPages]
          rfl
        rw [hstep, hrange, hcrawl]
        refine ⟨?_, ?_, ?_, ?_, ?_⟩
        · rw [ih1]; dsimp only; omega
        · rw [ih2]; dsimp only; omega
        · rw [ih3]; dsimp only; omega
        · rw [ih4]; dsimp only; omega
        · rw [ih5]
    · have hE : min (max page tp) maxPages + 1 - page = 1 := by omega
      rw [hE]
      have hstep : segLoop (mkPages tp lows cards) concelho now (fuel + 1) page lo stats
          lowsAcc db =
          ({ stats with
             processed := stats.processed + (cards page).length,
             created := stats.created + (processCards db concelho (cards page) now).2.1,
             updated := stats.updated + (processCards db concelho (cards page) now).2.2,
             pages := stats.pages + 1 },
            updateLowest lo (lows page), lowsAcc ++ [lows page],
            (processCards db concelho (cards page) now).1) := by
        simp only [segLoop, mkPages, decide_eq_false hlt, Bool.not_false, if_true]
      have hcrawl : crawlPages (mkPages tp lows cards) concelho now
          (List.range' page 1) db =
          { db := (processCards db concelho (cards page) now).1,
            processed := (cards page).length + 0,
            created := (processCards db concelho (cards page) now).2.1 + 0,
            updated := (processCards db concelho (cards page) now).2.2 + 0,
            pages := 1 + 0 } := by
        simp [crawlPages, mkPages, List.range'_one]
      rw [hstep, hcrawl]
      refine ⟨by dsimp only <;> omega, by dsimp only <;> omega, by dsimp only <;> omega,
        by dsimp only <;> omega, rfl⟩

lemma effectiveMaxPages_pos (cfg : Option Nat) : 1 ≤ effectiveMaxPages cfg := by
  unfold effectiveMaxPages MAX_PAGES_LIMIT
  rcases cfg with _ | n
  · dsimp only; omega
  · dsimp only
    split <;> omega

lemma effectiveMaxPages_le (cfg : Option Nat) : effectiveMaxPages cfg ≤ MAX_PAGES_LIMIT :=
  min_le_right _ _

/-- Claim C8: in concurrency-bounded mode the first page of a segment is
fetched alone, the remaining pages are fetched in batches of
`2 × concurrency_limit`, and each batch is re-sorted by page number before
persistence; hence for every fetch completion order (modelled as an
arbitrary permutation of every batch's results) the persisted processing
order is the strict ascending page sequence `1, …, n` — deterministic, and
exactly the order of the sequential `_scrape_segment` — and the resulting
store and the processed/created/updated/pages counters all coincide with
sequential-mode output. -/
theorem c8_concurrent_matches_sequential
    (tp : Nat) (lows : Nat → Option Int) (cards : Nat → List ParsedListingCard)
    (cfgMaxPages : Option Nat) (concurrency : Nat)
    (perm : Nat → List FetchResult → List FetchResult)
    (concelho : Option Concelho) (now : Nat) (db : Db)
    (hc : 1 ≤ concurrency) (hperm : ∀ b rs, (perm b rs).Perm rs) :
    (asyncScrapeSegment (mkPages tp lows cards) cfgMaxPages concurrency perm
        concelho now db).2.2 =
      List.range' 1 (min (max 1 tp) (effectiveMaxPages cfgMaxPages)) ∧
    (asyncScrapeSegment (mkPages tp lows cards) cfgMaxPages concurrency perm
        concelho now db).2.1 =
      (scrapeSegment (mkPages tp lows cards) cfgMaxPages concelho now db).2.2.2 ∧
    (asyncScrapeSegment (mkPages tp lows cards) cfgMaxPages concurrency perm
        concelho now db).1.processed =
      (scrapeSegment (mkPages tp lows cards) cfgMaxPages concelho now db).1.processed ∧
    (asyncScrapeSegment (mkPages tp lows cards) cfgMaxPages concurrency perm
        concelho now db).1.created =
      (scrapeSegment (mkPages tp lows cards) cfgMaxPages concelho now db).1.created ∧
    (asyncScrapeSegment (mkPages tp lows cards) cfgMaxPages concurrency perm
        concelho now db).1.updated =
      (scrapeSegment (mkPages tp lows cards) cfgMaxPages concelho now db).1.updated ∧
    (asyncScrapeSegment (mkPages tp lows cards) cfgMaxPages concurrency perm
        concelho now db).1.pages =
      (scrapeSegment (mkPages tp lows cards) cfgMaxPages concelho now db).1.pages := by
  have hmp1 : 1 ≤ effectiveMaxPages cfgMaxPages := effectiveMaxPages_pos cfgMaxPages
  have hmp60 : effectiveMaxPages cfgMaxPages ≤ MAX_PAGES_LIMIT :=
    effectiveMaxPages_le cfgMaxPages
  obtain ⟨s1, s2, s3, s4, s5⟩ :=
    segLoop_crawl tp lows cards concelho now (effectiveMaxPages cfgMaxPages) hmp60
      (effectiveMaxPages cfgMaxPages) 1 none {} [] db (by omega) (by omega)
  have hseq : scrapeSegment (mkPages tp lows cards) cfgMaxPages concelho now db =
      segLoop (mkPages tp lows cards) concelho now (effectiveMaxPages cfgMaxPages) 1
        none {} [] db := rfl
  have hone : min (max 1 tp) (effectiveMaxPages cfgMaxPages) + 1 - 1 =
      min (max 1 tp) (effectiveMaxPages cfgMaxPages) := by omega
  rw [hone] at s1 s2 s3 s4 s5
  have hcrawl1 : crawlPages (mkPages tp lows cards) concelho now [1] db =
      { db := (processCards db concelho (cards 1) now).1,
        processed := (cards 1).length + 0,
        created := (processCards db concelho (cards 1) now).2.1 + 0,
        updated := (processCards db concelho (cards 1) now).2.2 + 0,
        pages := 1 + 0 } := by
    simp [crawlPages, mkPages]
  rw [hseq]
  rcases le_or_lt tp 1 with htp | htp
  · have hn : min (max 1 tp) (effectiveMaxPages cfgMaxPages) = 1 := by omega
    rw [hn] at s1 s2 s3 s4 s5 ⊢
    rw [List.range'_one] at s1 s2 s3 s4 s5 ⊢
    have hasync : asyncScrapeSegment (mkPages tp lows cards) cfgMaxPages concurrency perm
        concelho now db =
        ({ processed := (cards 1).length,
           created := (processCards db concelho (cards 1) now).2.1,
           updated := (processCards db concelho (cards 1) now).2.2,
           pages := 1 },
          (processCards db concelho (cards 1) now).1, [1]) := by
      simp only [asyncScrapeSegment, mkPages, decide_eq_false (by omega : ¬ 1 < tp),
        Bool.not_false, Bool.or_true, if_true]
    rw [hasync]
    refine ⟨rfl, ?_, ?_, ?_, ?_, ?_⟩
    · rw [s5, hcrawl1]
    · rw [s1, hcrawl1]; dsimp only <;> omega
    · rw [s2, hcrawl1]; dsimp only <;> omega
    · rw [s3, hcrawl1]; dsimp only <;> omega
    · rw [s4, hcrawl1]; dsimp only <;> omega
  · have hif : (if tp = 0 then 1 else tp) = tp := if_neg (by omega)
    rcases le_or_lt (min tp (effectiveMaxPages cfgMaxPages)) 1 with hsm | hsm
    · have hn : min (max 1 tp) (effectiveMaxPages cfgMaxPages) = 1 := by omega
      rw [hn] at s1 s2 s3 s4 s5 ⊢
      rw [List.range'_one] at s1 s2 s3 s4 s5 ⊢
      have hasync : asyncScrapeSegment (mkPages tp lows cards) cfgMaxPages concurrency perm
          concelho now db =
          ({ processed := (cards 1).length,
             created := (processCards db concelho (cards 1) now).2.1,
             updated := (processCards db concelho (cards 1) now).2.2,
             pages := 1 },
            (processCards db concelho (cards 1) now).1, [1]) := by
        simp only [asyncScrapeSegment, mkPages, hif, decide_eq_true hsm, Bool.true_or,
          if_true]
      rw [hasync]
      refine ⟨rfl, ?_, ?_, ?_, ?_, ?_⟩
      · rw [s5, hcrawl1]
      · rw [s1, hcrawl1]; dsimp only <;> omega
      · rw [s2, hcrawl1]; dsimp only <;> omega
      · rw [s3, hcrawl1]; dsimp only <;> omega
      · rw [s4, hcrawl1]; dsimp only <;> omega
    · have hn : min (max 1 tp) (effectiveMaxPages cfgMaxPages) =
          min tp (effectiveMaxPages cfgMaxPages) := by omega
      rw [hn] at s1 s2 s3 s4 s5 ⊢
      have hsome : ∀ p, ((mkPages tp lows cards) p).isSome := fun _ => rfl
      obtain ⟨b1, b2, b3, b4, b5, b6, b7⟩ :=
        asyncBatchLoop_components (mkPages tp lows cards) concelho now perm
          (concurrency * 2) (min tp (effectiveMaxPages cfgMaxPages)) (by omega) hperm hsome
          (min tp (effectiveMaxPages cfgMaxPages)) 2
          { db := (processCards db concelho (cards 1) now).1,
            stats := { processed := (cards 1).length,
                       created := (processCards db concelho (cards 1) now).2.1,
                       updated := (processCards db concelho (cards 1) now).2.2,
                       pages := 1 },
            lowest := lows 1, order := [1] }
          (le_refl 2) (by omega)
      have hsplit : ∀ k : Nat, ((1 : Nat) :: List.range' 2 k) = List.range' 1 (k + 1) :=
        fun k => (List.range'_succ 1 k 1).symm
      have hk : min tp (effectiveMaxPages cfgMaxPages) + 1 - 2 + 1 =
          min tp (effectiveMaxPages cfgMaxPages) := by omega
      have hrw : List.range' 1 (min tp (effectiveMaxPages cfgMaxPages)) =
          (1 : Nat) :: List.range' 2 (min tp (effectiveMaxPages cfgMaxPages) + 1 - 2) := by
        rw [hsplit, hk]
      obtain ⟨a1, a2, a3, a4, a5⟩ :=
        crawlPages_append (mkPages tp lows cards) concelho now [1]
          (List.range' 2 (min tp (effectiveMaxPages cfgMaxPages) + 1 - 2)) db
      rw [List.singleton_append] at a1 a2 a3 a4 a5
      rw [hrw, a2, hcrawl1] at s1
      rw [hrw, a3, hcrawl1] at s2
      rw [hrw, a4, hcrawl1] at s3
      rw [hrw, a5, hcrawl1] at s4
      rw [hrw, a1, hcrawl1] at s5
      have hasync : asyncScrapeSegment (mkPages tp lows cards) cfgMaxPages concurrency perm
          concelho now db =
          (let A := asyncBatchLoop (mkPages tp lows cards) concelho now perm
              (concurrency * 2) (min tp (effectiveMaxPages cfgMaxPages))
              (min tp (effectiveMaxPages cfgMaxPages)) 2
              { db := (processCards db concelho (cards 1) now).1,
                stats := { processed := (cards 1).length,
                           created := (processCards db concelho (cards 1) now).2.1,
                           updated := (processCards db concelho (cards 1) now).2.2,
                           pages := 1 },
                lowest := lows 1, order := [1] };
           (if MAX_PAGES_LIMIT ≤ min tp (effectiveMaxPages cfgMaxPages) &&
                A.lowest.isSome then
              { A.stats with next_max_price := A.lowest }
            else A.stats, A.db, A.order)) := by
        simp only [asyncScrapeSegment, mkPages, hif,
          decide_eq_false (by omega : ¬ min tp (effectiveMaxPages cfgMaxPages) ≤ 1),
          decide_eq_true htp, Bool.not_true, Bool.or_false, Bool.false_eq_true, if_false]
      rw [hasync]
      dsimp only
      refine ⟨?_, ?_, ?_, ?_, ?_, ?_⟩
      · rw [b7]
        dsimp only
        rw [List.singleton_append, hsplit, hk]
      · rw [b1, s5]
      · rw [s1]
        split <;> (dsimp only; rw [b2]; dsimp only <;> omega)
      · rw [s2]
        split <;> (dsimp only; rw [b3]; dsimp only <;> omega)
      · rw [s3]
        split <;> (dsimp only; rw [b4]; dsimp only <;> omega)
      · rw [s4]
        split <;> (dsimp only; rw [b5]; dsimp only <;> omega)

/-- Witness for C8: a 3-page segment (page limit 5) crawled with
concurrency 1 while every batch completes in reverse order persists pages
`[1, 2, 3]` and matches the sequential crawl exactly. -/
theorem c8_concurrent_matches_sequential_witness :
    ((1 : Nat) ≤ 1) ∧
    (∀ (_b : Nat) (rs : List FetchResult), (rs.reverse).Perm rs) ∧
    ((asyncScrapeSegment (mkPages 3 (fun _ => some 100) (fun _ => [])) (some 5) 1
        (fun _ rs => rs.reverse) none 0 emptyDb).2.2 =
      List.range' 1 (min (max 1 3) (effectiveMaxPages (some 5))) ∧
     (asyncScrapeSegment (mkPages 3 (fun _ => some 100) (fun _ => [])) (some 5) 1
        (fun _ rs => rs.reverse) none 0 emptyDb).2.1 =
      (scrapeSegment (mkPages 3 (fun _ => some 100) (fun _ => [])) (some 5)
        none 0 emptyDb).2.2.2 ∧
     (asyncScrapeSegment (mkPages 3 (fun _ => some 100) (fun _ => [])) (some 5) 1
        (fun _ rs => rs.reverse) none 0 emptyDb).1.processed =
      (scrapeSegment (mkPages 3 (fun _ => some 100) (fun _ => [])) (some 5)
        none 0 emptyDb).1.processed ∧
     (asyncScrapeSegment (mkPages 3 (fun _ => some 100) (fun _ => [])) (some 5) 1
        (fun _ rs => rs.reverse) none 0 emptyDb).1.created =
      (scrapeSegment (mkPages 3 (fun _ => some 100) (fun _ => [])) (some 5)
        none 0 emptyDb).1.created ∧
     (asyncScrapeSegment (mkPages 3 (fun _ => some 100) (fun _ => [])) (some 5) 1
        (fun _ rs => rs.reverse) none 0 emptyDb).1.updated =
      (scrapeSegment (mkPages 3 (fun _ => some 100) (fun _ => [])) (some 5)
        none 0 emptyDb).1.updated ∧
     (asyncScrapeSegment (mkPages 3 (fun _ => some 100) (fun _ => [])) (some 5) 1
        (fun _ rs => rs.reverse) none 0 emptyDb).1.pages =
      (scrapeSegment (mkPages 3 (fun _ => some 100) (fun _ => [])) (some 5)
        none 0 emptyDb).1.pages) :=
  ⟨by decide, fun _ rs => rs.reverse_perm,
    c8_concurrent_matches_sequential 3 (fun _ => some 100) (fun _ => []) (some 5) 1
      (fun _ rs => rs.reverse) none 0 emptyDb (by decide) (fun _ rs => rs.reverse_perm)⟩

end Idealista
